import Mathlib

/-!
Verification of speech_latency: paced WAV streaming, provider registry, latency measurement
and the `benchmark` command.

A shallow embedding of `pkg/audio/wav_streamer.go`, `pkg/providers/provider.go`,
`pkg/providers/deepgram/deepgram.go`, `internal/config/env.go` and
`cmd/speech_latency/main.go`.

Conventions of the embedding

* a byte is a `Fin 256`; Go's `int` is the 64-bit signed integer, carried as an `Int`
  (conversions from unsigned values go through `toInt64`);
* a `time.Duration` is a signed number of nanoseconds;
* a Go result pair `(value, error)` is a Lean pair of `Option`s, `none` standing for `nil`;
* a function that can hit a run-time panic returns an `Option` (or a dedicated outcome type)
  whose failure case is the panic;
* mutable state reached through a pointer (the open file, the time spent sleeping) is passed
  in and out explicitly.
-/

namespace SpeechLatency

/-! ## Basic types -/

/-- One octet. -/
abbrev Byte := Fin 256

/-- Go `time.Duration`: a signed count of nanoseconds. -/
abbrev Duration := Int

/-- Go `time.Millisecond`. -/
def Millisecond : Duration := 1000000

/-- Go `time.Second`. -/
def Second : Duration := 1000000000

/-- Conversion of an unsigned machine value to Go `int` (64 bits, two's complement). -/
def toInt64 (n : Nat) : Int :=
  let m : Nat := n % 2 ^ 64
  if m < 2 ^ 63 then (m : Int) else (m : Int) - 2 ^ 64

/-- Errors a file read can report: the `io.EOF` sentinel or any other failure. -/
inductive IOErr where
  | EOF
  | other (msg : String)
  deriving DecidableEq, Repr

/-- Text of an I/O error, as `%w` prints it. -/
def IOErr.text : IOErr → String
  | .EOF => "EOF"
  | .other msg => msg

/-! ## Files -/

/-- An open regular file (`*os.File`): its bytes and the read cursor. -/
structure File where
  content : List Byte
  offset : Nat
  deriving DecidableEq, Repr

/-- A file system as seen by `os.Open`: a path names a regular file or nothing. -/
abbrev FS := String → Option (List Byte)

/-- Model of `os.Open`: a file opened at offset 0, or the error text. -/
def osOpen (fs : FS) (filePath : String) : Option File × Option String :=
  match fs filePath with
  | some bytes => (some { content := bytes, offset := 0 }, none)
  | none => (none, some ("open " ++ filePath ++ ": no such file or directory"))

/-- Result of one `Read` on a file: the bytes obtained (their number is Go's `n`) and the
error. -/
structure FileRead where
  data : List Byte
  err : Option IOErr
  file : File
  deriving DecidableEq, Repr

/-- Model of `(*os.File).Read` on a buffer of `k` bytes: a zero-length buffer reads nothing
and reports no error; at end of file the read reports `0, io.EOF`; otherwise it delivers the
next `min k remaining` bytes and advances the cursor. -/
def File.Read (f : File) (k : Nat) : FileRead :=
  if k = 0 then { data := [], err := none, file := f }
  else
    let rest := f.content.drop f.offset
    if rest = [] then { data := [], err := some .EOF, file := f }
    else
      let data := rest.take k
      { data := data, err := none, file := { f with offset := f.offset + data.length } }

/-- Model of `(*os.File).Seek(off, io.SeekStart)`: a negative target is refused, any other
becomes the cursor (also past the end of the file). -/
def File.Seek (f : File) (off : Int) : File × Option String :=
  if off < 0 then (f, some "seek: invalid argument")
  else ({ f with offset := off.toNat }, none)

/-- The bytes a file still has to deliver from its cursor on. -/
def File.rest (f : File) : List Byte := f.content.drop f.offset

/-- Storing `data` at the front of the buffer `buf` (what a read does to the caller's
slice). -/
def fillBuffer (buf data : List Byte) : List Byte :=
  data ++ buf.drop data.length

/-- Go `make([]byte, n)`: `n` zero bytes. -/
def makeBytes (n : Nat) : List Byte := List.replicate n 0

/-- Go slice expression `b[lo:hi]` for in-range bounds. -/
def slice (b : List Byte) (lo hi : Nat) : List Byte := (b.drop lo).take (hi - lo)

/-- Model of `binary.LittleEndian.Uint16` on a two-byte slice. -/
def Uint16 (b : List Byte) : Nat :=
  (b.getD 0 0).val + 256 * (b.getD 1 0).val

/-- Model of `binary.LittleEndian.Uint32` on a four-byte slice. -/
def Uint32 (b : List Byte) : Nat :=
  (b.getD 0 0).val + 256 * (b.getD 1 0).val + 65536 * (b.getD 2 0).val
    + 16777216 * (b.getD 3 0).val

/-- The ASCII bytes of `"RIFF"`. -/
def RIFF : List Byte := [0x52, 0x49, 0x46, 0x46]

/-- The ASCII bytes of `"WAVE"`. -/
def WAVE : List Byte := [0x57, 0x41, 0x56, 0x45]

/-! ## `pkg/audio/wav_streamer.go` -/

/-- Constant `DefaultChunkSize`. -/
def DefaultChunkSize : Int := 4096

/-- Constant `DefaultChunkInterval` (an untyped constant in the source). -/
def DefaultChunkInterval : Int := 100

/-- Struct `WAVStreamer`. -/
structure WAVStreamer where
  file : File
  chunkSize : Int
  chunkInterval : Duration
  headerSize : Int
  sampleRate : Int
  bytesPerSample : Int
  channels : Int
  deriving DecidableEq, Repr

/-- Function `NewWAVStreamer`: open the file, read 44 bytes into a zeroed buffer, check the
two markers, decode the three format fields. -/
def NewWAVStreamer (fs : FS) (filePath : String) (chunkSize : Int) (chunkInterval : Duration) :
    Option WAVStreamer × Option String :=
  match osOpen fs filePath with
  | (none, err) => (none, some ("failed to open WAV file: " ++ err.getD ""))
  | (some file, _) =>
    let rd := file.Read 44
    let header := fillBuffer (makeBytes 44) rd.data
    match rd.err with
    | some e => (none, some ("failed to read WAV header: " ++ e.text))
    | none =>
      if slice header 0 4 ≠ RIFF ∨ slice header 8 12 ≠ WAVE then
        (none, some "invalid WAV file format")
      else
        let channels := toInt64 (Uint16 (slice header 22 24))
        let sampleRate := toInt64 (Uint32 (slice header 24 28))
        let bitsPerSample := toInt64 (Uint16 (slice header 34 36))
        let bytesPerSample := Int.tdiv bitsPerSample 8
        (some
          { file := rd.file
            chunkSize := chunkSize
            chunkInterval := chunkInterval
            headerSize := 44
            sampleRate := sampleRate
            bytesPerSample := bytesPerSample
            channels := channels }, none)

/-- Method `GetAudioFormat`: `(sampleRate, channels, bytesPerSample)`. -/
def WAVStreamer.GetAudioFormat (w : WAVStreamer) : Int × Int × Int :=
  (w.sampleRate, w.channels, w.bytesPerSample)

/-- Struct `wavChunkReader`. -/
structure wavChunkReader where
  file : File
  chunkSize : Int
  chunkInterval : Duration
  deriving DecidableEq, Repr

/-- Method `Stream`: seek to the start of the audio data and hand out a chunk reader over
the same file. -/
def WAVStreamer.Stream (w : WAVStreamer) : Option wavChunkReader × Option String :=
  match w.file.Seek w.headerSize with
  | (_, some e) => (none, some ("failed to seek to audio data: " ++ e))
  | (file, none) =>
    (some { file := file, chunkSize := w.chunkSize, chunkInterval := w.chunkInterval }, none)

/-- Model of `time.Sleep d` on the accumulated sleeping time: a negative or zero duration
returns at once, any other adds `d`. -/
def Sleep (d : Duration) (slept : Duration) : Duration :=
  if d ≤ 0 then slept else slept + d

/-- What one call of `wavChunkReader.Read` leaves behind: the count `n`, the error, the
caller's buffer, the reader (its file cursor) and the accumulated sleeping time. -/
structure ChunkRead where
  n : Nat
  err : Option IOErr
  p : List Byte
  reader : wavChunkReader
  slept : Duration
  deriving DecidableEq, Repr

/-- Method `wavChunkReader.Read` on the caller's buffer `p`. The result is `none` when the
slice expression `p[:chunkSize]` panics (a negative chunk size). -/
def wavChunkReader.Read (r : wavChunkReader) (p : List Byte) (slept : Duration) :
    Option ChunkRead :=
  let chunkSize : Int := if r.chunkSize > (p.length : Int) then (p.length : Int) else r.chunkSize
  if chunkSize < 0 then none
  else
    let rd := r.file.Read chunkSize.toNat
    let n := rd.data.length
    let p' := fillBuffer p rd.data
    let r' : wavChunkReader := { r with file := rd.file }
    if rd.err ≠ none ∧ rd.err ≠ some .EOF then
      some { n := n, err := rd.err, p := p', reader := r', slept := slept }
    else
      let slept' := if n > 0 then Sleep r.chunkInterval slept else slept
      some { n := n, err := rd.err, p := p', reader := r', slept := slept' }

/-- Method `wavChunkReader.GetFile`: rewind the file to offset 0 (the seek's error is
dropped) and return it. -/
def wavChunkReader.GetFile (r : wavChunkReader) : File :=
  (r.file.Seek 0).1

/-- What a drain of a chunk reader produced: the non-empty pulls in order, the reader and
the accumulated sleeping time at the end. -/
structure Drained where
  pulls : List (List Byte)
  reader : wavChunkReader
  slept : Duration
  deriving DecidableEq, Repr

/-- Outcome of a bounded drain. -/
inductive DrainOutcome where
  | done (d : Drained)
  | failed (e : IOErr) (d : Drained)
  | panicked
  | outOfFuel
  deriving DecidableEq, Repr

/-- A consumer draining a chunk reader: call `Read` on the buffer `p` again and again, keep
the `n` leading bytes of the buffer whenever `n > 0`, stop at `io.EOF` (or at any other
error). `fuel` bounds the number of calls. -/
def drain : Nat → wavChunkReader → List Byte → Duration → DrainOutcome
  | 0, _, _, _ => .outOfFuel
  | fuel + 1, r, p, slept =>
    match r.Read p slept with
    | none => .panicked
    | some res =>
      let here : List (List Byte) := if res.n > 0 then [res.p.take res.n] else []
      match res.err with
      | some .EOF => .done { pulls := here, reader := res.reader, slept := res.slept }
      | some e => .failed e { pulls := here, reader := res.reader, slept := res.slept }
      | none =>
        match drain fuel res.reader res.p res.slept with
        | .done d => .done { d with pulls := here ++ d.pulls }
        | .failed e d => .failed e { d with pulls := here ++ d.pulls }
        | .panicked => .panicked
        | .outOfFuel => .outOfFuel

/-! ## Calls that may panic -/

/-- Outcome of a call that may end in a run-time panic instead of returning. -/
inductive Call (α : Type) where
  | returned (a : α)
  | panicked (msg : String)
  deriving DecidableEq, Repr

/-! ## float64

Values of Go's `float64` as far as this program needs them: the two infinities, NaN, and
the finite values, which are carried as exact rationals (rounding of finite results is not
modelled; it changes neither the sign of a value nor whether it is 0, infinite or NaN for
the operands met here). The only zero that arises is `+0`: the conversion of an integer
never gives `-0`, and neither does a sum or quotient of the values below. -/

/-- A `float64` value. -/
inductive F64 where
  | nan
  | posInf
  | negInf
  | finite (q : ℚ)
  deriving DecidableEq, Repr

/-- Go conversion `float64(i)` of an integer. -/
def F64.ofInt (i : Int) : F64 := .finite (i : ℚ)

/-- IEEE 754 addition. -/
def F64.add : F64 → F64 → F64
  | .nan, _ => .nan
  | _, .nan => .nan
  | .posInf, .negInf => .nan
  | .negInf, .posInf => .nan
  | .posInf, _ => .posInf
  | _, .posInf => .posInf
  | .negInf, _ => .negInf
  | _, .negInf => .negInf
  | .finite a, .finite b => .finite (a + b)

/-- IEEE 754 division, the zero divisor being `+0`: a non-zero finite value divided by zero
is the infinity of its sign, `0 / 0` is NaN. -/
def F64.div : F64 → F64 → F64
  | .nan, _ => .nan
  | _, .nan => .nan
  | .finite a, .finite b =>
    if b = 0 then
      if a = 0 then .nan else if 0 < a then .posInf else .negInf
    else .finite (a / b)
  | .finite _, .posInf => .finite 0
  | .finite _, .negInf => .finite 0
  | .posInf, .finite b => if 0 ≤ b then .posInf else .negInf
  | .negInf, .finite b => if 0 ≤ b then .negInf else .posInf
  | .posInf, .posInf => .nan
  | .posInf, .negInf => .nan
  | .negInf, .posInf => .nan
  | .negInf, .negInf => .nan

/-- The comparison `x >= 0` on `float64`: false for NaN. -/
def F64.nonneg : F64 → Bool
  | .nan => false
  | .posInf => true
  | .negInf => false
  | .finite q => decide (0 ≤ q)

/-- Method `Duration.Seconds` of the standard library:
`float64(d / Second) + float64(d % Second) / 1e9`. -/
def Seconds (d : Duration) : F64 :=
  F64.add (F64.ofInt (Int.tdiv d Second)) (F64.div (F64.ofInt (Int.tmod d Second)) (.finite 1000000000))

/-! ## `pkg/providers/deepgram/deepgram.go` -/

namespace deepgram

/-- Struct `deepgram.Config`. -/
structure Config where
  SampleRate : Int
  Channels : Int
  Language : String
  Interim : Bool
  Punctuate : Bool
  SmartFormat : Bool
  deriving DecidableEq, Repr

/-- Struct `deepgram.Result`. -/
structure Result where
  Latency : F64
  Throughput : F64
  deriving DecidableEq, Repr

/-- Struct `deepgram.Provider`; `config` is a pointer and may be nil. -/
structure Provider where
  apiKey : String
  config : Option Config
  deriving DecidableEq, Repr

/-- Function `deepgram.NewProvider`. -/
def NewProvider (config : Option Config) (apiKey : String) : Option Provider × Option String :=
  (some { apiKey := apiKey, config := config }, none)

/-- One entry of the `words` array of a response. -/
structure WordInfo where
  Word : String
  Start : F64
  End : F64
  Confidence : F64
  deriving DecidableEq, Repr

/-- One entry of the `alternatives` array of a response. -/
structure Alternative where
  Transcript : String
  Words : List WordInfo
  deriving DecidableEq, Repr

/-- One entry of the `channels` array of a response. -/
structure Channel where
  Alternatives : List Alternative
  deriving DecidableEq, Repr

/-- The `results` object of a response. -/
structure Results where
  Channels : List Channel
  IsFinal : Bool
  deriving DecidableEq, Repr

/-- Struct `DeepgramResponse`. -/
structure DeepgramResponse where
  Results : Results
  deriving DecidableEq, Repr

/-- Go index expression `xs[0]`: the first element, or the run-time panic. -/
def index0 {α : Type} (xs : List α) : Call α :=
  match xs with
  | x :: _ => .returned x
  | [] => .panicked "runtime error: index out of range [0] with length 0"

/-- Formatting of a boolean by the verb `%t`. -/
def fmtBool (b : Bool) : String := if b then "true" else "false"

/-- The throughput computed by `StreamAudio`: `float64(wordCount) / latency.Seconds()`. -/
def throughput (wordCount : Int) (latency : Duration) : F64 :=
  F64.div (F64.ofInt wordCount) (Seconds latency)

/-- The latency reported by `StreamAudio`: `float64(latency.Nanoseconds()) / 1e6`. -/
def latencyMs (latency : Duration) : F64 :=
  F64.div (F64.ofInt latency) (.finite 1000000)

/-- What the measurement step hands back: the result and the lines written to standard
output. -/
structure Measured where
  result : Result
  printed : List String
  deriving DecidableEq, Repr

/-- The measurement step of `StreamAudio` (from "Calculate throughput" to the return), for a
decoded response and the latency `time.Since(startTime)`. Index expressions are evaluated
in the order of the source; the first one out of range ends the call in a panic. -/
def measure (dgResp : DeepgramResponse) (latency : Duration) : Call Measured :=
  let guarded : Call (String × Int × Bool) :=
    match dgResp.Results.Channels with
    | [] => .returned ("", 0, false)
    | ch :: _ =>
      match ch.Alternatives with
      | [] => .returned ("", 0, false)
      | alt :: _ =>
        match index0 alt.Words with
        | .panicked msg => .panicked msg
        | .returned w => .returned (w.Word, (alt.Words.length : Int), dgResp.Results.IsFinal)
  match guarded with
  | .panicked msg => .panicked msg
  | .returned (firstWord, wordCount, isFinal) =>
    let throughput := throughput wordCount latency
    match index0 dgResp.Results.Channels with
    | .panicked msg => .panicked msg
    | .returned ch0 =>
      match index0 ch0.Alternatives with
      | .panicked msg => .panicked msg
      | .returned alt0 =>
        .returned
          { result := { Latency := latencyMs latency, Throughput := throughput }
            printed := ["Transcription: " ++ alt0.Transcript ++ "\n",
                        "first Word: " ++ firstWord ++ "\n",
                        "first Word is_final: " ++ fmtBool isFinal ++ "\n"] }

/-- A request context: `none` stands for a nil context. -/
abbrev Context := Option Unit

/-- The HTTP request `StreamAudio` builds. `query` lists the parameters in the order in which
they are added (every key is added once). -/
structure Request where
  method : String
  url : String
  authorization : String
  contentType : String
  query : List (String × String)
  body : List Byte
  deriving DecidableEq, Repr

/-- An HTTP response: the status code and the raw body. -/
structure Response where
  StatusCode : Int
  Body : String
  deriving DecidableEq, Repr

/-- Constant `http.StatusOK`. -/
def StatusOK : Int := 200

/-- Everything outside the program that one call of `StreamAudio` meets: the transport
(`client.Do`), the JSON decoder applied to a response body, and the time the monotonic clock
has advanced between `time.Now()` and `time.Since(startTime)`, in nanoseconds. -/
structure World where
  send : Request → Option Response × Option String
  decode : String → Except String DeepgramResponse
  elapsedNs : Nat

/-- The audio source passed to `StreamAudio` as an `io.Reader`: a `*wavChunkReader`, which
has the method `GetFile`, or any other reader, given by what `io.ReadAll` obtains from it. -/
inductive AudioReader where
  | chunked (r : wavChunkReader)
  | plain (data : List Byte) (err : Option String)

/-- Model of `io.ReadAll` on an open file: everything from the cursor to the end. -/
def ReadAllFile (f : File) : List Byte × Option String :=
  (f.rest, none)

/-- Step "complete audio data" of `StreamAudio`: a reader with `GetFile` is read through the
rewound file, any other reader is read directly. -/
def acquireAudio (audioReader : AudioReader) : List Byte × Option String :=
  match audioReader with
  | .chunked r => ReadAllFile r.GetFile
  | .plain data err => (data, err)

/-- Step "Add query parameters" of `StreamAudio`. -/
def queryParams (config : Config) : List (String × String) :=
  [("model", "nova-3"), ("language", config.Language)]
    ++ (if config.Punctuate then [("punctuate", "true")] else [])
    ++ (if config.SmartFormat then [("smart_format", "true")] else [])
    ++ [("words", "true"), ("interim_results", "true")]

/-- What `StreamAudio` returns: the pair `(*Result, error)` and the lines it printed. -/
structure Returned where
  result : Option Result
  err : Option String
  printed : List String
  deriving DecidableEq, Repr

/-- Step "Parse response" and the measurement of `StreamAudio`, for a response that passed
the status check. -/
def decodeAndMeasure (w : World) (resp : Response) : Call Returned :=
  match w.decode resp.Body with
  | .error e =>
    .returned { result := none, err := some ("failed to decode response: " ++ e), printed := [] }
  | .ok dgResp =>
    match measure dgResp (w.elapsedNs : Int) with
    | .panicked msg => .panicked msg
    | .returned m => .returned { result := some m.result, err := none, printed := m.printed }

/-- The status check of `StreamAudio` and what follows it. -/
def handleResponse (w : World) (resp : Response) : Call Returned :=
  if resp.StatusCode ≠ StatusOK then
    .returned
      { result := none
        err := some ("API error " ++ toString resp.StatusCode ++ ": " ++ resp.Body)
        printed := [] }
  else decodeAndMeasure w resp

/-- Method `Provider.StreamAudio`. -/
def StreamAudio (p : Provider) (ctx : Context) (audioReader : AudioReader) (w : World) :
    Call Returned :=
  match acquireAudio audioReader with
  | (_, some e) =>
    .returned { result := none, err := some ("failed to read audio data: " ++ e), printed := [] }
  | (audioData, none) =>
    match ctx with
    | none =>
      .returned
        { result := none, err := some "failed to create request: net/http: nil Context",
          printed := [] }
    | some _ =>
      match p.config with
      | none => .panicked "runtime error: invalid memory address or nil pointer dereference"
      | some config =>
        let req : Request :=
          { method := "POST"
            url := "https://api.deepgram.com/v1/listen"
            authorization := "Token " ++ p.apiKey
            contentType := "audio/wav"
            query := queryParams config
            body := audioData }
        match w.send req with
        | (_, some e) =>
          .returned { result := none, err := some ("failed to send request: " ++ e), printed := [] }
        | (none, none) =>
          .panicked "runtime error: invalid memory address or nil pointer dereference"
        | (some resp, none) => handleResponse w resp

end deepgram

/-! ## `pkg/providers/provider.go` -/

namespace providers

/-- Struct `providers.Config`. -/
structure Config where
  SampleRate : Int
  Channels : Int
  Language : String
  Interim : Bool
  Punctuate : Bool
  SmartFormat : Bool
  deriving DecidableEq, Repr

/-- Struct `providers.Result`. -/
structure Result where
  Latency : F64
  Throughput : F64
  deriving DecidableEq, Repr

/-- Interface `Provider`: the adapter around a `*deepgram.Provider` defined in this package,
or an implementation from elsewhere, known by a tag. -/
inductive Provider where
  | deepgramAdapter (provider : Option deepgram.Provider)
  | external (tag : String)
  deriving DecidableEq, Repr

/-- A provider constructor, `func(*Config, string) (Provider, error)`: the configuration
pointer may be nil, and the call may panic. -/
abbrev Constructor := Option Config → String → Call (Option Provider × Option String)

/-- A Go map from provider names to constructors: `none` is the nil map, which the field has
in a zero-value `Factory`; `some m` is an initialised map with the entries `m`. -/
abbrev ConstructorMap := Option (String → Option Constructor)

/-- Struct `Factory`: the map from provider names to constructors. -/
structure Factory where
  providers : ConstructorMap

/-- Method `RegisterProvider`: `f.providers[name] = factory`. The assignment panics on a
nil map; on an initialised map it sets the entry of `name` and leaves the others. -/
def Factory.RegisterProvider (f : Factory) (name : String) (factory : Constructor) :
    Call Factory :=
  match f.providers with
  | none => .panicked "assignment to entry in nil map"
  | some m =>
    .returned { providers := some (fun key => if key = name then some factory else m key) }

/-- The constructor `NewFactory` registers under `"deepgram"`. -/
def deepgramConstructor : Constructor := fun config apiKey =>
  match config with
  | none => .panicked "runtime error: invalid memory address or nil pointer dereference"
  | some config =>
    let dgConfig : deepgram.Config :=
      { SampleRate := config.SampleRate
        Channels := config.Channels
        Language := config.Language
        Interim := config.Interim
        Punctuate := config.Punctuate
        SmartFormat := config.SmartFormat }
    match deepgram.NewProvider (some dgConfig) apiKey with
    | (_, some err) => .returned (none, some err)
    | (dgProvider, none) => .returned (some (.deepgramAdapter dgProvider), none)

/-- Function `NewFactory`: a map made empty, then the registration of `"deepgram"` (which
finds the map initialised and so does not panic). -/
def NewFactory : Factory :=
  let f : Factory := { providers := some (fun _ => none) }
  match f.RegisterProvider "deepgram" deepgramConstructor with
  | .returned g => g
  | .panicked _ => f

/-- Method `CreateProvider`: `factory, ok := f.providers[name]`, which finds nothing in a nil
map, then the error or the call of the constructor. -/
def Factory.CreateProvider (f : Factory) (name : String) (config : Option Config)
    (apiKey : String) : Call (Option Provider × Option String) :=
  let found : Option Constructor :=
    match f.providers with
    | none => none
    | some m => m name
  match found with
  | none => .returned (none, some ("unknown provider: " ++ name))
  | some factory => factory config apiKey

/-- A sequence of `RegisterProvider` calls, carried out in order; the first one that panics
ends the sequence. -/
def Factory.registerAll (f : Factory) : List (String × Constructor) → Call Factory
  | [] => .returned f
  | reg :: regs =>
    match f.RegisterProvider reg.1 reg.2 with
    | .panicked msg => .panicked msg
    | .returned g => g.registerAll regs

/-- The constructor registered last under `name` in a sequence of registrations, if any. -/
def lastRegistered (regs : List (String × Constructor)) (name : String) : Option Constructor :=
  (regs.reverse.find? (fun reg => reg.1 = name)).map (fun reg => reg.2)

end providers

/-! ## `internal/config/env.go` -/

/-- The process environment as `os.Getenv` reads it: the value of a variable, `""` when it
is unset. -/
abbrev Env := String → String

namespace config

/-- Model of `strings.ToUpper`, on ASCII letters. -/
def ToUpper (s : String) : String := String.mk (s.data.map Char.toUpper)

/-- Function `GetProviderAPIKey`. -/
def GetProviderAPIKey (env : Env) (providerName : String) : String × Option String :=
  let key := env (ToUpper providerName ++ "_API_KEY")
  if key = "" then
    ("", some (ToUpper providerName ++ "_API_KEY environment variable is required"))
  else (key, none)

/-- Function `GetEnvWithDefault`. -/
def GetEnvWithDefault (env : Env) (key defaultValue : String) : String :=
  let value := env key
  if value ≠ "" then value else defaultValue

end config

/-! ## `cmd/speech_latency/main.go` -/

/-- Model of `strconv.Atoi` for the 64-bit `int`: an optional sign, then one or more decimal
digits, the value within the range of `int`; anything else is an error (`none`). -/
def Atoi (s : String) : Option Int :=
  let signed : Bool × List Char :=
    match s.data with
    | '-' :: rest => (true, rest)
    | '+' :: rest => (false, rest)
    | cs => (false, cs)
  if signed.2 = [] ∨ signed.2.all Char.isDigit = false then none
  else
    let n : Nat := signed.2.foldl (fun acc c => 10 * acc + (c.toNat - 48)) 0
    let v : Int := if signed.1 then -(n : Int) else (n : Int)
    if v < -(2 ^ 63) ∨ 2 ^ 63 - 1 < v then none else some v

/-- Function `getEnvInt`. -/
def getEnvInt (env : Env) (key : String) (defaultValue : Int) : Int :=
  let value := env key
  if value ≠ "" then
    match Atoi value with
    | some intValue => intValue
    | none => defaultValue
  else defaultValue

/-- Default of the flag `chunk-size` set up in `init`:
`getEnvInt("DEFAULT_CHUNK_SIZE", audio.DefaultChunkSize)`. -/
def chunkSizeFlagDefault (env : Env) : Int :=
  getEnvInt env "DEFAULT_CHUNK_SIZE" DefaultChunkSize

/-- Default of the flag `chunk-interval` set up in `init`:
`getEnvInt("DEFAULT_CHUNK_INTERVAL", int(audio.DefaultChunkInterval/time.Millisecond))`; the
quotient is a constant of type `time.Duration`, an integer division truncated toward zero. -/
def chunkIntervalFlagDefault (env : Env) : Int :=
  getEnvInt env "DEFAULT_CHUNK_INTERVAL" (Int.tdiv DefaultChunkInterval Millisecond)

/-- Wrap-around of a product or sum computed in `int64`. -/
def wrap64 (i : Int) : Int := toInt64 (i % 2 ^ 64).toNat

namespace providers

/-- What `Provider.StreamAudio` returns: the pair `(*Result, error)` and the lines printed
on the way. -/
structure Returned where
  result : Option Result
  err : Option String
  printed : List String
  deriving DecidableEq, Repr

/-- Method `StreamAudio` of the interface `Provider`. For the adapter it is
`deepgramAdapter.StreamAudio`, which calls the Deepgram provider and copies its result; an
adapter around a nil provider gets as far as the first use of the provider's fields. An
implementation from elsewhere is given by `external`. -/
def Provider.StreamAudio (p : Provider) (external : String → Call Returned)
    (ctx : deepgram.Context) (audioReader : deepgram.AudioReader) (w : deepgram.World) :
    Call Returned :=
  match p with
  | .external tag => external tag
  | .deepgramAdapter none =>
    match deepgram.acquireAudio audioReader with
    | (_, some e) =>
      .returned { result := none, err := some ("failed to read audio data: " ++ e), printed := [] }
    | (_, none) =>
      match ctx with
      | none =>
        .returned
          { result := none, err := some "failed to create request: net/http: nil Context",
            printed := [] }
      | some _ => .panicked "runtime error: invalid memory address or nil pointer dereference"
  | .deepgramAdapter (some provider) =>
    match deepgram.StreamAudio provider ctx audioReader w with
    | .panicked msg => .panicked msg
    | .returned res =>
      match res.err with
      | some err => .returned { result := none, err := some err, printed := res.printed }
      | none =>
        match res.result with
        | none => .panicked "runtime error: invalid memory address or nil pointer dereference"
        | some result =>
          .returned
            { result := some { Latency := result.Latency, Throughput := result.Throughput }
              err := none
              printed := res.printed }

end providers

/-- The values of the flags of the `benchmark` command after parsing, as `Run` reads them
with `GetString`, `GetInt` and `GetBool`. -/
structure Flags where
  provider : String
  audio : String
  chunkSize : Int
  chunkInterval : Int
  language : String
  interim : Bool
  punctuate : Bool
  smartFormat : Bool
  deriving DecidableEq, Repr

/-- Everything outside the program that one run of the `benchmark` command meets: the file
system, the environment, the world of the network exchange, providers implemented
elsewhere, and the formatting of a `float64` by the verb `%.2f`. -/
structure Host where
  fs : FS
  env : Env
  world : deepgram.World
  external : String → Call providers.Returned
  fmtFloat : F64 → String

/-- How `Run` of the `benchmark` command ends: it returns, it calls `os.Exit`, or it
panics; `printed` are the lines written to standard output up to then. -/
inductive Ended where
  | returned (printed : List String)
  | exit (code : Int) (printed : List String)
  | panicked (msg : String)
  deriving DecidableEq, Repr

/-- The function `Run` of `benchmarkCmd`. -/
def benchmarkCmd.Run (h : Host) (fl : Flags) : Ended :=
  match NewWAVStreamer h.fs fl.audio fl.chunkSize (wrap64 (fl.chunkInterval * Millisecond)) with
  | (_, some err) => .exit 1 ["Error creating WAV streamer: " ++ err ++ "\n"]
  | (none, none) => .panicked "runtime error: invalid memory address or nil pointer dereference"
  | (some streamer, none) =>
    let out1 : List String :=
      ["Audio format: " ++ toString streamer.GetAudioFormat.1 ++ " Hz, "
        ++ toString streamer.GetAudioFormat.2.1 ++ " channels\n"]
    let providerConfig : providers.Config :=
      { SampleRate := streamer.GetAudioFormat.1
        Channels := streamer.GetAudioFormat.2.1
        Language := fl.language
        Interim := fl.interim
        Punctuate := fl.punctuate
        SmartFormat := fl.smartFormat }
    match config.GetProviderAPIKey h.env fl.provider with
    | (_, some err) => .exit 1 (out1 ++ ["Error: " ++ err ++ "\n"])
    | (apiKey, none) =>
      match providers.NewFactory.CreateProvider fl.provider (some providerConfig) apiKey with
      | .panicked msg => .panicked msg
      | .returned (_, some err) =>
        .exit 1 (out1 ++ ["Error creating provider: " ++ err ++ "\n"])
      | .returned (provider, none) =>
        match streamer.Stream with
        | (_, some err) => .exit 1 (out1 ++ ["Error getting audio stream: " ++ err ++ "\n"])
        | (none, none) =>
          .panicked "runtime error: invalid memory address or nil pointer dereference"
        | (some audioStream, none) =>
          let out2 : List String :=
            out1 ++ ["Starting benchmark with " ++ fl.provider ++ " provider...\n"]
          match provider with
          | none => .panicked "runtime error: invalid memory address or nil pointer dereference"
          | some prov =>
            match prov.StreamAudio h.external (some ()) (.chunked audioStream) h.world with
            | .panicked msg => .panicked msg
            | .returned res =>
              match res.err with
              | some err =>
                .exit 1 (out2 ++ res.printed ++ ["Error streaming audio: " ++ err ++ "\n"])
              | none =>
                match res.result with
                | none =>
                  .panicked "runtime error: invalid memory address or nil pointer dereference"
                | some result =>
                  .returned
                    (out2 ++ res.printed ++
                      ["First word latency: " ++ h.fmtFloat result.Latency ++ " ms\n",
                       "Throughput: " ++ h.fmtFloat result.Throughput ++ " words/second\n"])

/-! ## Reading a file to its end -/

/-- The loop of `io.ReadAll` on a file, each `Read` being offered `room` free bytes of the
buffer: what is read is appended to `acc` until a read reports an error, and `io.EOF` is
turned into no error. `fuel` bounds the number of reads; `none` is "out of fuel". -/
def ReadAllLoop : Nat → File → Nat → List Byte → Option ((List Byte × Option String) × File)
  | 0, _, _, _ => none
  | fuel + 1, f, room, acc =>
    let rd := f.Read room
    match rd.err with
    | some .EOF => some ((acc ++ rd.data, none), rd.file)
    | some e => some ((acc ++ rd.data, some e.text), rd.file)
    | none => ReadAllLoop fuel rd.file room (acc ++ rd.data)

/-! ## Example inputs -/

/-- A complete 44-byte header: mono, 16000 Hz, 16 bits per sample. -/
def header16k : List Byte :=
  [0x52, 0x49, 0x46, 0x46, 0x24, 0x20, 0x00, 0x00, 0x57, 0x41, 0x56, 0x45,
   0x66, 0x6d, 0x74, 0x20, 0x10, 0x00, 0x00, 0x00, 0x01, 0x00, 0x01, 0x00,
   0x80, 0x3e, 0x00, 0x00, 0x00, 0x7d, 0x00, 0x00, 0x02, 0x00, 0x10, 0x00,
   0x64, 0x61, 0x74, 0x61, 0x00, 0x20, 0x00, 0x00]

/-- A 44-byte header whose first marker reads `RIFX`. -/
def headerBadMarker : List Byte :=
  [0x52, 0x49, 0x46, 0x58] ++ header16k.drop 4

/-- A 12-byte file: `RIFF`, four zero bytes, `WAVE`, and nothing else. -/
def shortFile : List Byte :=
  [0x52, 0x49, 0x46, 0x46, 0x00, 0x00, 0x00, 0x00, 0x57, 0x41, 0x56, 0x45]

/-- A file system holding exactly one file, `a.wav`. -/
def oneFile (bytes : List Byte) : FS :=
  fun path => if path = "a.wav" then some bytes else none

/-- A WAV file: the header `header16k` followed by ten payload bytes. -/
def tenByteWav : List Byte :=
  header16k ++ [1, 2, 3, 4, 5, 6, 7, 8, 9, 10]

/-- A streamer over `tenByteWav` with chunk size 4 and a 100 ms interval, its cursor left
at offset 7 by earlier reads. -/
def streamer4 : WAVStreamer :=
  { file := { content := tenByteWav, offset := 7 }
    chunkSize := 4
    chunkInterval := 100 * Millisecond
    headerSize := 44
    sampleRate := 16000
    bytesPerSample := 2
    channels := 1 }

/-- A chunk reader at the start of the payload of `tenByteWav`, chunk size 4, with a
negative chunk interval of -1 ms. -/
def readerNegInterval : wavChunkReader :=
  { file := { content := tenByteWav, offset := 44 }
    chunkSize := 4
    chunkInterval := -1 * Millisecond }

/-- A chunk reader at the start of the payload of `tenByteWav`, chunk size 4, with a
100 ms chunk interval. -/
def reader4 : wavChunkReader :=
  { file := { content := tenByteWav, offset := 44 }
    chunkSize := 4
    chunkInterval := 100 * Millisecond }

/-- The state a full drain of `reader4` ends in: three pulls and 300 ms of sleep. -/
def drained4 : Drained :=
  { pulls := [[1, 2, 3, 4], [5, 6, 7, 8], [9, 10]]
    reader := { file := { content := tenByteWav, offset := 54 }
                chunkSize := 4
                chunkInterval := 100 * Millisecond }
    slept := 300 * Millisecond }

/-- A provider configuration: 16 kHz mono English with all three options on. -/
def cfgEn : providers.Config :=
  { SampleRate := 16000, Channels := 1, Language := "en-US", Interim := true,
    Punctuate := true, SmartFormat := true }

/-- A constructor that always fails with the error "quota exceeded". -/
def failingConstructor : providers.Constructor :=
  fun _ _ => .returned (none, some "quota exceeded")

/-- A constructor that always returns the external provider tagged with the API key. -/
def echoConstructor : providers.Constructor :=
  fun _ apiKey => .returned (some (.external apiKey), none)

/-- A decoded response without channels, as from the body `{"results":{"channels":[]}}`. -/
def respNoChannels : deepgram.DeepgramResponse :=
  { Results := { Channels := [], IsFinal := false } }

/-- A decoded response whose only channel has no alternatives. -/
def respNoAlternatives : deepgram.DeepgramResponse :=
  { Results := { Channels := [{ Alternatives := [] }], IsFinal := false } }

/-- A decoded response whose first alternative has an empty word list. -/
def respNoWords : deepgram.DeepgramResponse :=
  { Results :=
      { Channels := [{ Alternatives := [{ Transcript := "", Words := [] }] }],
        IsFinal := true } }

/-- A decoded response with the two words "hello world". -/
def respTwoWords : deepgram.DeepgramResponse :=
  { Results :=
      { Channels :=
          [{ Alternatives :=
              [{ Transcript := "hello world"
                 Words :=
                   [{ Word := "hello", Start := .finite 0, End := .finite (1 / 2),
                      Confidence := .finite 1 },
                    { Word := "world", Start := .finite (1 / 2), End := .finite 1,
                      Confidence := .finite 1 }] }] }]
        IsFinal := true } }

/-- A Deepgram provider with a configuration. -/
def dgProvider : deepgram.Provider :=
  { apiKey := "k"
    config := some
      { SampleRate := 16000, Channels := 1, Language := "en-US", Interim := true,
        Punctuate := true, SmartFormat := true } }

/-- A world in which the service answers every request with the given status code and
body, every body decodes to `dgResp`, and the clock advances by `elapsedNs`. -/
def worldAnswering (code : Int) (body : String) (dgResp : deepgram.DeepgramResponse)
    (elapsedNs : Nat) : deepgram.World :=
  { send := fun _ => (some { StatusCode := code, Body := body }, none)
    decode := fun _ => .ok dgResp
    elapsedNs := elapsedNs }

/-- A Deepgram configuration with every option off, interim results included. -/
def dgConfigNoInterim : deepgram.Config :=
  { SampleRate := 16000, Channels := 1, Language := "en-US", Interim := false,
    Punctuate := false, SmartFormat := false }

/-- A 44-byte header with both markers and every other byte zero: 0 channels, 0 Hz, 0 bits
per sample. -/
def headerZeroFormat : List Byte :=
  [0x52, 0x49, 0x46, 0x46, 0x00, 0x00, 0x00, 0x00, 0x57, 0x41, 0x56, 0x45]
    ++ List.replicate 32 0

/-- The header `header16k` with the bits-per-sample field set to 12. -/
def header12bit : List Byte :=
  header16k.take 34 ++ [0x0c] ++ header16k.drop 35

/-- A world whose service answers 200 only to a request whose body is `tenByteWav`, header
included, and refuses every other request. -/
def worldExpectingWholeFile : deepgram.World :=
  { send := fun req =>
      if req.body = tenByteWav then (some { StatusCode := 200, Body := "{}" }, none)
      else (none, some "unexpected body")
    decode := fun _ => .ok respTwoWords
    elapsedNs := 5000000 }

/-- An environment in which no variable is set. -/
def emptyEnv : Env := fun _ => ""

/-- An environment in which exactly one variable is set. -/
def envWith (key value : String) : Env :=
  fun k => if k = key then value else ""

/-- A host with the one file `a.wav` (`tenByteWav`), the API key of Deepgram in the
environment and a service that answers 200 with two words after 5 ms. -/
def hostOneWav (fmtFloat : F64 → String) : Host :=
  { fs := oneFile tenByteWav
    env := envWith "DEEPGRAM_API_KEY" "k"
    world := worldAnswering 200 "{}" respTwoWords 5000000
    external := fun _ => .panicked "no external provider"
    fmtFloat := fmtFloat }

/-- The flags of `benchmark -a a.wav -s -1`, the others at their defaults. -/
def flagsNegativeSize : Flags :=
  { provider := "deepgram", audio := "a.wav", chunkSize := -1, chunkInterval := 100,
    language := "en-US", interim := true, punctuate := true, smartFormat := true }

/-- The flags of `benchmark -a a.wav -i -1`, the others at their defaults. -/
def flagsNegativeInterval : Flags :=
  { provider := "deepgram", audio := "a.wav", chunkSize := 4096, chunkInterval := -1,
    language := "en-US", interim := true, punctuate := true, smartFormat := true }

/-- The zero value of `Factory` (`providers.Factory{}` or `new(providers.Factory)`): its map
is nil. -/
def zeroFactory : providers.Factory := { providers := none }

/-- The first 40 bytes of `header16k`: a short file whose bits-per-sample field is still
present (16), while the last four bytes of the header are missing. -/
def header16kPrefix40 : List Byte := header16k.take 40

/-- The streamer `NewWAVStreamer` builds from `header16kPrefix40`. -/
def streamerPrefix40 : WAVStreamer :=
  { file := { content := header16kPrefix40, offset := 40 }
    chunkSize := 4096
    chunkInterval := 0
    headerSize := 44
    sampleRate := 16000
    bytesPerSample := 2
    channels := 1 }

/-! ## Lemmas on the byte-level helpers -/

theorem toInt64_of_lt (n : Nat) (h : n < 2 ^ 63) : toInt64 n = (n : Int) := by
  have h1 : n % 2 ^ 64 = n := Nat.mod_eq_of_lt (by omega)
  simp only [toInt64, h1, if_pos h]

theorem fillBuffer_full (c : List Byte) (h : 44 ≤ c.length) :
    fillBuffer (makeBytes 44) (c.take 44) = c.take 44 := by
  simp [fillBuffer, makeBytes, List.length_take, Nat.min_eq_left h]

theorem slice_take (c : List Byte) (lo hi m : Nat) (h : hi ≤ m) :
    slice (c.take m) lo hi = slice c lo hi := by
  unfold slice
  rw [List.drop_take, List.take_take]
  congr 1
  omega

theorem Uint16_slice (c : List Byte) (i : Nat) :
    Uint16 (slice c i (i + 2)) = (c.getD i 0).val + 256 * (c.getD (i + 1) 0).val := by
  simp [Uint16, slice, List.getD_eq_getElem?_getD, List.getElem?_take, List.getElem?_drop]

theorem Uint32_slice (c : List Byte) (i : Nat) :
    Uint32 (slice c i (i + 4)) =
      (c.getD i 0).val + 256 * (c.getD (i + 1) 0).val + 65536 * (c.getD (i + 2) 0).val
        + 16777216 * (c.getD (i + 3) 0).val := by
  simp [Uint32, slice, List.getD_eq_getElem?_getD, List.getElem?_take, List.getElem?_drop]

/-- Reading the header of a file that holds at least 44 bytes delivers its first 44 bytes
without error. -/
theorem File.Read_header (c : List Byte) (h : 44 ≤ c.length) :
    File.Read { content := c, offset := 0 } 44 =
      { data := c.take 44, err := none, file := { content := c, offset := 44 } } := by
  have hne : c ≠ [] := by
    intro h0
    simp [h0] at h
  simp [File.Read, hne, List.length_take, Nat.min_eq_left h]

/-! ## The container parser -/

/-- The streamer `NewWAVStreamer` builds from a file of at least 44 bytes that carries both
markers, written out field by field. -/
theorem NewWAVStreamer_accepts (fs : FS) (filePath : String) (chunkSize : Int)
    (chunkInterval : Duration) (c : List Byte)
    (hopen : fs filePath = some c) (hlen : 44 ≤ c.length)
    (hriff : slice c 0 4 = RIFF) (hwave : slice c 8 12 = WAVE) :
    NewWAVStreamer fs filePath chunkSize chunkInterval =
      (some
        { file := { content := c, offset := 44 }
          chunkSize := chunkSize
          chunkInterval := chunkInterval
          headerSize := 44
          sampleRate := (((c.getD 24 0).val + 256 * (c.getD 25 0).val
            + 65536 * (c.getD 26 0).val + 16777216 * (c.getD 27 0).val : Nat) : Int)
          bytesPerSample := ((((c.getD 34 0).val + 256 * (c.getD 35 0).val) / 8 : Nat) : Int)
          channels := (((c.getD 22 0).val + 256 * (c.getD 23 0).val : Nat) : Int) }, none) := by
  have h22 := (c.getD 22 0).isLt
  have h23 := (c.getD 23 0).isLt
  have h24 := (c.getD 24 0).isLt
  have h25 := (c.getD 25 0).isLt
  have h26 := (c.getD 26 0).isLt
  have h27 := (c.getD 27 0).isLt
  have h34 := (c.getD 34 0).isLt
  have h35 := (c.getD 35 0).isLt
  simp only [NewWAVStreamer, osOpen, hopen, File.Read_header c hlen, fillBuffer_full c hlen,
    slice_take c _ _ 44 (by norm_num : 4 ≤ 44), slice_take c _ _ 44 (by norm_num : 12 ≤ 44),
    slice_take c _ _ 44 (by norm_num : 24 ≤ 44), slice_take c _ _ 44 (by norm_num : 28 ≤ 44),
    slice_take c _ _ 44 (by norm_num : 36 ≤ 44), hriff, hwave, ne_eq, not_true_eq_false,
    or_self, if_false, Uint16_slice c 22, Uint16_slice c 34, Uint32_slice c 24]
  rw [toInt64_of_lt _ (by omega), toInt64_of_lt _ (by omega), toInt64_of_lt _ (by omega)]
  rfl

/-- C1: for every file of at least 44 bytes whose bytes [0:4] are `RIFF` and [8:12] are
`WAVE`, `NewWAVStreamer` returns a streamer and no error, and `GetAudioFormat` reports
channels = the little-endian 16-bit value at offset 22, sampleRate = the little-endian
32-bit value at offset 24 and bytesPerSample = (the little-endian 16-bit value at offset 34)
divided by 8 with integer division. -/
theorem NewWAVStreamer_parses_header (fs : FS) (filePath : String) (chunkSize : Int)
    (chunkInterval : Duration) (c : List Byte)
    (hopen : fs filePath = some c) (hlen : 44 ≤ c.length)
    (hriff : slice c 0 4 = RIFF) (hwave : slice c 8 12 = WAVE) :
    ∃ w, NewWAVStreamer fs filePath chunkSize chunkInterval = (some w, none) ∧
      w.GetAudioFormat =
        ((((c.getD 24 0).val + 256 * (c.getD 25 0).val + 65536 * (c.getD 26 0).val
            + 16777216 * (c.getD 27 0).val : Nat) : Int),
         (((c.getD 22 0).val + 256 * (c.getD 23 0).val : Nat) : Int),
         ((((c.getD 34 0).val + 256 * (c.getD 35 0).val) / 8 : Nat) : Int)) :=
  ⟨_, NewWAVStreamer_accepts fs filePath chunkSize chunkInterval c hopen hlen hriff hwave, rfl⟩

/-- Witness of C1: the 16 kHz mono 16-bit header is accepted. -/
theorem NewWAVStreamer_parses_header_witness :
    ∃ w, NewWAVStreamer (oneFile header16k) "a.wav" 4096 0 = (some w, none) ∧
      w.GetAudioFormat = (16000, 1, 2) :=
  NewWAVStreamer_parses_header (oneFile header16k) "a.wav" 4096 0 header16k
    (by decide) (by decide) (by decide) (by decide)

/-- C2: for every file of at least 44 bytes whose bytes [0:4] differ from `RIFF` or whose
bytes [8:12] differ from `WAVE`, whatever its other bytes are, `NewWAVStreamer` returns no
streamer (nil) together with the error "invalid WAV file format". -/
theorem NewWAVStreamer_rejects_bad_markers (fs : FS) (filePath : String) (chunkSize : Int)
    (chunkInterval : Duration) (c : List Byte)
    (hopen : fs filePath = some c) (hlen : 44 ≤ c.length)
    (hbad : slice c 0 4 ≠ RIFF ∨ slice c 8 12 ≠ WAVE) :
    NewWAVStreamer fs filePath chunkSize chunkInterval =
      (none, some "invalid WAV file format") := by
  simp only [NewWAVStreamer, osOpen, hopen, File.Read_header c hlen, fillBuffer_full c hlen,
    slice_take c _ _ 44 (by norm_num : 4 ≤ 44), slice_take c _ _ 44 (by norm_num : 12 ≤ 44),
    if_pos hbad]

/-- Witness of C2: a header that starts with `RIFX` is rejected with the format error. -/
theorem NewWAVStreamer_rejects_bad_markers_witness :
    NewWAVStreamer (oneFile headerBadMarker) "a.wav" 4096 0 =
      (none, some "invalid WAV file format") :=
  NewWAVStreamer_rejects_bad_markers (oneFile headerBadMarker) "a.wav" 4096 0 headerBadMarker
    (by decide) (by decide) (Or.inl (by decide))

/-- C3 (the code at the failing input): a 12-byte file that holds `RIFF`, four zero bytes and
`WAVE` is shorter than 44 bytes, yet `NewWAVStreamer` reports no error: it returns a
streamer parsed from the header buffer whose unread tail is zero, with sample rate,
channel count and bytes per sample all 0. -/
theorem NewWAVStreamer_short_file_accepted :
    shortFile.length = 12 ∧
    NewWAVStreamer (oneFile shortFile) "a.wav" 4096 0 =
      (some
        { file := { content := shortFile, offset := 12 }
          chunkSize := 4096
          chunkInterval := 0
          headerSize := 44
          sampleRate := 0
          bytesPerSample := 0
          channels := 0 }, none) := by
  decide

/-! ## The paced stream emitter -/

/-- A pull at the end of the file: nothing is read, `io.EOF` is reported, and no time is
spent sleeping. -/
theorem wavChunkReader.Read_at_eof (f : File) (C : Nat) (I : Duration) (p : List Byte)
    (s : Duration) (hC : 0 < C) (hp : C ≤ p.length) (hrest : f.rest = []) :
    wavChunkReader.Read { file := f, chunkSize := C, chunkInterval := I } p s =
      some { n := 0, err := some .EOF, p := p,
             reader := { file := f, chunkSize := C, chunkInterval := I }, slept := s } := by
  unfold File.rest at hrest
  have h1 : ¬ ((C : Int) > (p.length : Int)) := by omega
  have h2 : ¬ ((C : Int) < 0) := by omega
  have h3 : C ≠ 0 := by omega
  simp [wavChunkReader.Read, File.Read, h1, h2, h3, hrest, fillBuffer]

/-- A pull before the end of the file: the next `min C remaining` bytes are stored at the
front of the buffer, no error is reported, the cursor advances and `Sleep` is called once. -/
theorem wavChunkReader.Read_data (f : File) (C : Nat) (I : Duration) (p : List Byte)
    (s : Duration) (hC : 0 < C) (hp : C ≤ p.length) (hrest : f.rest ≠ []) :
    wavChunkReader.Read { file := f, chunkSize := C, chunkInterval := I } p s =
      some { n := (f.rest.take C).length, err := none, p := fillBuffer p (f.rest.take C),
             reader := { file := { f with offset := f.offset + (f.rest.take C).length },
                         chunkSize := C, chunkInterval := I },
             slept := Sleep I s } := by
  have h1 : ¬ ((C : Int) > (p.length : Int)) := by omega
  have h2 : ¬ ((C : Int) < 0) := by omega
  have h3 : C ≠ 0 := by omega
  have hlen : 0 < f.rest.length := List.length_pos.mpr hrest
  have h4 : 0 < (f.rest.take C).length := by
    rw [List.length_take]
    omega
  unfold File.rest at hrest h4
  simp only [wavChunkReader.Read, File.Read, h1, h2, h3, hrest, if_false, Int.toNat_ofNat,
    File.rest]
  rw [if_neg (fun h => h.1 rfl), if_pos h4]

theorem take_fillBuffer (p data : List Byte) :
    (fillBuffer p data).take data.length = data := by
  simp [fillBuffer]

theorem length_fillBuffer (p data : List Byte) (h : data.length ≤ p.length) :
    (fillBuffer p data).length = p.length := by
  simp only [fillBuffer, List.length_append, List.length_drop]
  omega

theorem drop_length_take (l : List Byte) (C : Nat) :
    l.drop (l.take C).length = l.drop C := by
  rw [List.length_take]
  by_cases h : C ≤ l.length
  · rw [Nat.min_eq_left h]
  · have h1 : l.length ≤ C := by omega
    rw [Nat.min_eq_right h1, List.drop_of_length_le h1, List.drop_of_length_le (le_refl _)]

/-- Number of chunks of size `C` needed for `m` bytes, one chunk fewer once a full chunk is
taken off. -/
theorem ceil_div_step (m C : Nat) (hC : 0 < C) (hm : C < m) :
    (m + C - 1) / C = (m - C + C - 1) / C + 1 := by
  have h : m + C - 1 = (m - C + C - 1) + C := by omega
  rw [h, Nat.add_div_right _ hC]

theorem ceil_div_small (m C : Nat) (hm : 0 < m) (hmC : m ≤ C) :
    (m + C - 1) / C = 1 := by
  have h : m + C - 1 = (m - 1) + C := by omega
  have hC : 0 < C := by omega
  rw [h, Nat.add_div_right _ hC, Nat.div_eq_of_lt (by omega)]

theorem ceil_div_pos_iff (m C : Nat) (hC : 0 < C) :
    0 < (m + C - 1) / C ↔ 0 < m := by
  constructor
  · intro h
    by_contra h0
    have hm : m = 0 := by omega
    subst hm
    have : (0 + C - 1) / C = 0 := Nat.div_eq_of_lt (by omega)
    omega
  · intro h
    exact Nat.div_pos (by omega) hC

/-- One unfolding of `drain` at a reader that still has bytes to deliver. -/
theorem drain_succ_data (k : Nat) (f : File) (C : Nat) (I : Duration) (p : List Byte)
    (s : Duration) (hC : 0 < C) (hp : C ≤ p.length) (hrest : f.rest ≠ []) :
    drain (k + 1) { file := f, chunkSize := C, chunkInterval := I } p s =
      match drain k { file := { f with offset := f.offset + (f.rest.take C).length },
                      chunkSize := C, chunkInterval := I }
              (fillBuffer p (f.rest.take C)) (Sleep I s) with
      | .done d => .done { d with pulls := [f.rest.take C] ++ d.pulls }
      | .failed e d => .failed e { d with pulls := [f.rest.take C] ++ d.pulls }
      | .panicked => .panicked
      | .outOfFuel => .outOfFuel := by
  have hlen : 0 < f.rest.length := List.length_pos.mpr hrest
  have h4 : 0 < (f.rest.take C).length := by
    rw [List.length_take]
    omega
  rw [drain, wavChunkReader.Read_data f C I p s hC hp hrest]
  simp only [gt_iff_lt, h4, if_true, take_fillBuffer]

/-- One unfolding of `drain` at a reader whose file is exhausted. -/
theorem drain_succ_eof (k : Nat) (f : File) (C : Nat) (I : Duration) (p : List Byte)
    (s : Duration) (hC : 0 < C) (hp : C ≤ p.length) (hrest : f.rest = []) :
    drain (k + 1) { file := f, chunkSize := C, chunkInterval := I } p s =
      .done { pulls := [], reader := { file := f, chunkSize := C, chunkInterval := I },
              slept := s } := by
  rw [drain, wavChunkReader.Read_at_eof f C I p s hC hp hrest]
  simp

/-- What a full drain delivers, for a positive chunk size `C` and a buffer of at least `C`
bytes: with `m` bytes left in the file and more than `⌈m / C⌉` calls allowed, the drain
ends at `io.EOF` with `⌈m / C⌉` pulls, none empty and none longer than `C`, all but the last
of exactly `C` bytes, whose concatenation is the rest of the file; `Sleep` ran once per
pull. -/
theorem drain_spec (C : Nat) (I : Duration) (hC : 0 < C) :
    ∀ (m fuel : Nat) (f : File) (p : List Byte) (s : Duration),
      f.rest.length = m → C ≤ p.length → (m + C - 1) / C < fuel →
      ∃ d, drain fuel { file := f, chunkSize := C, chunkInterval := I } p s = .done d ∧
        d.pulls.flatten = f.rest ∧
        d.pulls.length = (m + C - 1) / C ∧
        (∀ c ∈ d.pulls, 0 < c.length ∧ c.length ≤ C) ∧
        (∀ i, i + 1 < d.pulls.length → (d.pulls.getD i []).length = C) ∧
        d.slept = (Sleep I)^[d.pulls.length] s := by
  intro m
  induction m using Nat.strong_induction_on with
  | _ m ih =>
    intro fuel f p s hm hp hfuel
    obtain ⟨k, rfl⟩ : ∃ k, fuel = k + 1 := by
      cases fuel with
      | zero => exact absurd hfuel (Nat.not_lt_zero _)
      | succ k => exact ⟨k, rfl⟩
    by_cases hrest : f.rest = []
    · have hm0 : m = 0 := by
        rw [← hm, hrest]
        rfl
      subst hm0
      have hz : (C - 1) / C = 0 := Nat.div_eq_of_lt (by omega)
      refine ⟨_, drain_succ_eof k f C I p s hC hp hrest, ?_⟩
      simp [hrest, hz]
    · have hmpos : 0 < m := by
        rw [← hm]
        exact List.length_pos.mpr hrest
      have hdlen : (f.rest.take C).length = min C m := by
        rw [List.length_take, hm]
      have hrest' : File.rest { f with offset := f.offset + (f.rest.take C).length }
          = f.rest.drop C := by
        simp only [File.rest]
        rw [← List.drop_drop]
        exact drop_length_take _ C
      have hm' : (File.rest { f with offset := f.offset + (f.rest.take C).length }).length
          = m - C := by
        rw [hrest', List.length_drop, hm]
      have hp' : C ≤ (fillBuffer p (f.rest.take C)).length := by
        rw [length_fillBuffer _ _ (by rw [hdlen]; omega)]
        exact hp
      have hfuel' : (m - C + C - 1) / C < k := by
        by_cases hmC : C < m
        · have := ceil_div_step m C hC hmC
          omega
        · have h1 := ceil_div_small m C hmpos (by omega)
          have h0 : m - C = 0 := by omega
          have hz : (0 + C - 1) / C = 0 := Nat.div_eq_of_lt (by omega)
          rw [h0, hz]
          omega
      obtain ⟨d, hd, hjoin, hlen, hall, hfull, hslept⟩ :=
        ih (m - C) (by omega) k _ (fillBuffer p (f.rest.take C)) (Sleep I s) hm' hp' hfuel'
      refine ⟨{ d with pulls := [f.rest.take C] ++ d.pulls }, ?_, ?_, ?_, ?_, ?_, ?_⟩
      · rw [drain_succ_data k f C I p s hC hp hrest, hd]
      · simp only [List.singleton_append, List.flatten_cons, hjoin, hrest',
          List.take_append_drop]
      · simp only [List.singleton_append, List.length_cons, hlen]
        by_cases hmC : C < m
        · exact (ceil_div_step m C hC hmC).symm
        · have h1 := ceil_div_small m C hmpos (by omega)
          have h0 : m - C = 0 := by omega
          have hz : (0 + C - 1) / C = 0 := Nat.div_eq_of_lt (by omega)
          rw [h0, hz, h1]
      · intro c hc
        simp only [List.singleton_append, List.mem_cons] at hc
        rcases hc with rfl | hc
        · rw [hdlen]
          omega
        · exact hall c hc
      · intro i hi
        simp only [List.singleton_append, List.length_cons] at hi
        cases i with
        | zero =>
          have hpos : 0 < (m - C + C - 1) / C := by omega
          have hmC : 0 < m - C := (ceil_div_pos_iff (m - C) C hC).mp hpos
          simp only [List.singleton_append, List.getD_cons_zero, hdlen]
          omega
        | succ j =>
          simp only [List.singleton_append, List.getD_cons_succ]
          exact hfull j (by omega)
      · simp only [List.singleton_append, List.length_cons, Function.iterate_succ_apply]
        exact hslept

/-- C4: for every streamer over a file whose header is 44 bytes long, whatever its cursor
position, every chunk size `C > 0` and every caller buffer of at least `C` bytes, a fresh
`Stream()` succeeds and draining its reader (given more than `⌈L / C⌉` calls, `L` the length
of the payload after offset 44) ends at `io.EOF` after exactly `⌈L / C⌉` non-empty pulls, each
of at most `C` bytes and all but the last of exactly `C` bytes, whose concatenation in pull
order is the file from offset 44 to its end, so that the pulled bytes sum to `L`. -/
theorem Stream_drain_chunks (w : WAVStreamer) (C : Nat) (p : List Byte) (slept : Duration)
    (fuel : Nat) (hhdr : w.headerSize = 44) (hcs : w.chunkSize = (C : Int)) (hC : 0 < C)
    (hp : C ≤ p.length) (hfuel : ((w.file.content.drop 44).length + C - 1) / C < fuel) :
    ∃ r d, w.Stream = (some r, none) ∧ drain fuel r p slept = .done d ∧
      d.pulls.length = ((w.file.content.drop 44).length + C - 1) / C ∧
      (∀ c ∈ d.pulls, 0 < c.length ∧ c.length ≤ C) ∧
      (∀ i, i + 1 < d.pulls.length → (d.pulls.getD i []).length = C) ∧
      d.pulls.flatten = w.file.content.drop 44 ∧
      (d.pulls.map List.length).sum = (w.file.content.drop 44).length := by
  obtain ⟨d, hd, hjoin, hlen, hall, hfull, _⟩ :=
    drain_spec C w.chunkInterval hC (w.file.content.drop 44).length fuel
      { w.file with offset := 44 } p slept rfl hp hfuel
  refine ⟨{ file := { w.file with offset := 44 }, chunkSize := C,
            chunkInterval := w.chunkInterval }, d, ?_, hd, hlen, hall, hfull, hjoin, ?_⟩
  · simp [WAVStreamer.Stream, File.Seek, hhdr, hcs]
  · rw [← List.length_flatten, hjoin]
    rfl

/-- Witness of C4: ten payload bytes in chunks of four, from a cursor left at offset 7. -/
theorem Stream_drain_chunks_witness :
    ∃ r d, streamer4.Stream = (some r, none) ∧
      drain 4 r (makeBytes 8) 0 = .done d ∧
      d.pulls.length = ((streamer4.file.content.drop 44).length + 4 - 1) / 4 ∧
      (∀ c ∈ d.pulls, 0 < c.length ∧ c.length ≤ 4) ∧
      (∀ i, i + 1 < d.pulls.length → (d.pulls.getD i []).length = 4) ∧
      d.pulls.flatten = streamer4.file.content.drop 44 ∧
      (d.pulls.map List.length).sum = (streamer4.file.content.drop 44).length :=
  Stream_drain_chunks streamer4 4 (makeBytes 8) 0 4 rfl rfl (by decide) (by decide)
    (by decide)

/-! ## Pacing -/

/-- A file read reports no error or `io.EOF`, never anything else. -/
theorem File.Read_err (f : File) (k : Nat) :
    (f.Read k).err = none ∨ (f.Read k).err = some .EOF := by
  unfold File.Read
  by_cases h1 : k = 0 <;> by_cases h2 : f.content.drop f.offset = [] <;> simp [h1, h2]

/-- `Sleep` with a non-negative duration adds that duration. -/
theorem Sleep_of_nonneg (d s : Duration) (h : 0 ≤ d) : Sleep d s = s + d := by
  unfold Sleep
  split
  · have : d = 0 := le_antisymm (by assumption) h
    rw [this, add_zero]
  · rfl

/-- `N` sleeps of a non-negative duration add `N` times that duration. -/
theorem Sleep_iterate (d : Duration) (h : 0 ≤ d) (N : Nat) (s : Duration) :
    (Sleep d)^[N] s = s + (N : Int) * d := by
  induction N generalizing s with
  | zero => simp
  | succ n ih =>
    rw [Function.iterate_succ_apply, ih, Sleep_of_nonneg d s h]
    push_cast
    ring

/-- One call of `Read`: the reader keeps its chunk size and interval, and `Sleep` is called
once when bytes were read and not at all otherwise. -/
theorem wavChunkReader.Read_accounting (r : wavChunkReader) (p : List Byte) (s : Duration)
    (res : ChunkRead) (h : r.Read p s = some res) :
    res.reader.chunkInterval = r.chunkInterval ∧ res.reader.chunkSize = r.chunkSize ∧
      res.slept = if 0 < res.n then Sleep r.chunkInterval s else s := by
  unfold wavChunkReader.Read at h
  simp only at h
  generalize (if r.chunkSize > (p.length : Int) then (p.length : Int) else r.chunkSize) = cs at h
  by_cases hneg : cs < 0
  · simp [hneg] at h
  · rw [if_neg hneg] at h
    have hdead : ¬ ((r.file.Read cs.toNat).err ≠ none ∧
        (r.file.Read cs.toNat).err ≠ some .EOF) := by
      rintro ⟨h1, h2⟩
      rcases File.Read_err r.file cs.toNat with h0 | h0
      · exact h1 h0
      · exact h2 h0
    rw [if_neg hdead] at h
    simp only [Option.some.injEq] at h
    subst h
    exact ⟨rfl, rfl, rfl⟩

/-- A drain that ends at `io.EOF` called `Sleep` once per recorded pull. -/
theorem drain_sleeps : ∀ (fuel : Nat) (r : wavChunkReader) (p : List Byte) (s : Duration)
    (d : Drained), drain fuel r p s = .done d →
    d.slept = (Sleep r.chunkInterval)^[d.pulls.length] s := by
  intro fuel
  induction fuel with
  | zero =>
    intro r p s d h
    simp [drain] at h
  | succ k ih =>
    intro r p s d h
    rw [drain] at h
    cases hread : r.Read p s with
    | none => simp [hread] at h
    | some res =>
      obtain ⟨hI, -, hs⟩ := wavChunkReader.Read_accounting r p s res hread
      simp only [hread] at h
      cases herr : res.err with
      | some e =>
        cases e with
        | EOF =>
          simp only [herr, DrainOutcome.done.injEq] at h
          subst h
          by_cases hn : 0 < res.n
          · simp [hn, hs]
          · simp [hn, hs]
        | other msg => simp [herr] at h
      | none =>
        simp only [herr] at h
        cases hrec : drain k res.reader res.p res.slept with
        | done d' =>
          simp only [hrec, DrainOutcome.done.injEq] at h
          subst h
          have := ih res.reader res.p res.slept d' hrec
          rw [hI, hs] at this
          by_cases hn : 0 < res.n
          · simp only [gt_iff_lt, hn, if_true, List.singleton_append, List.length_cons,
              Function.iterate_succ_apply] at this ⊢
            exact this
          · simp only [gt_iff_lt, hn, if_false, List.nil_append] at this ⊢
            exact this
        | failed e d' => simp [hrec] at h
        | panicked => simp [hrec] at h
        | outOfFuel => simp [hrec] at h

/-- C5 (amended): with a chunk interval that is not negative, every call of `Read` that
returns `n > 0` bytes adds exactly one chunk interval to the time slept and every call that
returns 0 bytes adds nothing; hence a drain that ends at `io.EOF` after `N` non-empty pulls
has slept exactly `N` chunk intervals, which is at least `N - 1` chunk intervals; and for a
chunk size `C > 0` and a buffer of at least `C` bytes the drain does end so, with
`N = ⌈rest / C⌉`, once more than `N` calls are allowed. -/
theorem Read_sleep_accounting (r : wavChunkReader) (p : List Byte) (s : Duration)
    (hI : 0 ≤ r.chunkInterval) :
    (∀ res, r.Read p s = some res →
      (0 < res.n → res.slept = s + r.chunkInterval) ∧ (res.n = 0 → res.slept = s)) ∧
    (∀ fuel d, drain fuel r p s = .done d →
      d.slept = s + (d.pulls.length : Int) * r.chunkInterval ∧
      s + ((d.pulls.length : Int) - 1) * r.chunkInterval ≤ d.slept) ∧
    (∀ (C fuel : Nat), 0 < C → r.chunkSize = (C : Int) → C ≤ p.length →
      (r.file.rest.length + C - 1) / C < fuel →
      ∃ d, drain fuel r p s = .done d ∧ d.pulls.length = (r.file.rest.length + C - 1) / C ∧
        d.slept = s + (d.pulls.length : Int) * r.chunkInterval) := by
  have hdone : ∀ fuel d, drain fuel r p s = .done d →
      d.slept = s + (d.pulls.length : Int) * r.chunkInterval := by
    intro fuel d h
    have hs := drain_sleeps fuel r p s d h
    rw [Sleep_iterate _ hI] at hs
    exact hs
  refine ⟨?_, ?_, ?_⟩
  · intro res h
    obtain ⟨-, -, hs⟩ := wavChunkReader.Read_accounting r p s res h
    constructor
    · intro hn
      rw [hs, if_pos hn, Sleep_of_nonneg _ _ hI]
    · intro hn
      rw [hs, if_neg (by omega)]
  · intro fuel d h
    have hs := hdone fuel d h
    refine ⟨hs, ?_⟩
    rw [hs]
    nlinarith
  · intro C fuel hC hcs hp hfuel
    obtain ⟨f, cs, I⟩ := r
    simp only at hcs
    subst hcs
    obtain ⟨d, hd, -, hlen, -, -, -⟩ := drain_spec C I hC f.rest.length fuel f p s rfl hp hfuel
    exact ⟨d, hd, hlen, hdone fuel d hd⟩

/-- Witness of C5: draining ten payload bytes in chunks of four at 100 ms sleeps 300 ms. -/
theorem Read_sleep_accounting_witness :
    drain 4 reader4 (makeBytes 4) 0 = .done drained4 ∧
      drained4.slept = 0 + (drained4.pulls.length : Int) * reader4.chunkInterval ∧
      0 + ((drained4.pulls.length : Int) - 1) * reader4.chunkInterval ≤ drained4.slept :=
  ⟨by decide,
    (Read_sleep_accounting reader4 (makeBytes 4) 0 (by decide)).2.1 4 drained4 (by decide)⟩

/-- C5 (counterexample): with a chunk interval of -1 ms a call of `Read` returns 4 bytes
and leaves the time slept at 0, although one chunk interval added to it is -1000000 ns. -/
theorem Read_negative_interval_adds_nothing :
    (readerNegInterval.Read (makeBytes 4) 0).map (fun res => (res.n, res.slept)) = some (4, 0) ∧
      (0 : Duration) + readerNegInterval.chunkInterval = -1000000 := by
  decide

/-! ## The provider registry -/

namespace providers

theorem Factory.RegisterProvider_initialised (m : String → Option Constructor)
    (name : String) (factory : Constructor) :
    Factory.RegisterProvider { providers := some m } name factory =
      .returned { providers := some (fun key => if key = name then some factory else m key) } :=
  rfl

theorem NewFactory_eq :
    NewFactory =
      { providers := some (fun key =>
          if key = "deepgram" then some deepgramConstructor else none) } := rfl

theorem lastRegistered_nil (name : String) : lastRegistered [] name = none := rfl

theorem lastRegistered_cons (reg : String × Constructor) (regs : List (String × Constructor))
    (name : String) :
    lastRegistered (reg :: regs) name =
      match lastRegistered regs name with
      | some ctor => some ctor
      | none => if reg.1 = name then some reg.2 else none := by
  unfold lastRegistered
  rw [List.reverse_cons, List.find?_append]
  cases h : List.find? (fun reg => decide (reg.1 = name)) regs.reverse with
  | some r => simp
  | none =>
    by_cases hn : reg.1 = name
    · simp [hn]
    · simp [hn]

/-- The map after a sequence of registrations on an initialised map: no registration
panics, and each name has the last constructor registered under it if there is one, its
earlier entry otherwise. -/
theorem Factory.registerAll_initialised (regs : List (String × Constructor)) :
    ∀ (m : String → Option Constructor),
      ∃ m' : String → Option Constructor,
        Factory.registerAll { providers := some m } regs = .returned { providers := some m' } ∧
        ∀ name : String,
          m' name =
            match lastRegistered regs name with
            | some ctor => some ctor
            | none => m name := by
  induction regs with
  | nil =>
    intro m
    exact ⟨m, rfl, fun _ => rfl⟩
  | cons reg regs ih =>
    intro m
    obtain ⟨m', hm', hlook⟩ :=
      ih (fun key => if key = reg.1 then some reg.2 else m key)
    refine ⟨m', ?_, ?_⟩
    · rw [Factory.registerAll, Factory.RegisterProvider_initialised]
      exact hm'
    · intro name
      rw [hlook name, lastRegistered_cons]
      cases lastRegistered regs name with
      | some ctor => rfl
      | none =>
        by_cases hn : reg.1 = name
        · simp [hn]
        · have hn' : ¬ name = reg.1 := fun h => hn h.symm
          simp [hn, hn']

/-- A factory whose map is initialised, written with its entries. -/
theorem Factory.eq_of_initialised (f : Factory) (h : f.providers.isSome = true) :
    ∃ m : String → Option Constructor, f = { providers := some m } := by
  obtain ⟨providers⟩ := f
  cases providers with
  | none => simp at h
  | some m => exact ⟨m, rfl⟩

end providers

/-- C6: on a factory built by `NewFactory` with no further registration, `CreateProvider`
returns a nil provider and the error "unknown provider: <name>" for every name other than
`"deepgram"`, and for `"deepgram"` with any non-nil configuration and any key it returns a
non-nil provider (the adapter around a Deepgram provider holding the key and the copied
configuration) and no error. -/
theorem NewFactory_CreateProvider :
    (∀ (name : String) (cfg : Option providers.Config) (key : String), name ≠ "deepgram" →
      providers.NewFactory.CreateProvider name cfg key =
        .returned (none, some ("unknown provider: " ++ name))) ∧
    (∀ (cfg : providers.Config) (key : String),
      providers.NewFactory.CreateProvider "deepgram" (some cfg) key =
        .returned
          (some (.deepgramAdapter (some
            { apiKey := key
              config := some
                { SampleRate := cfg.SampleRate, Channels := cfg.Channels,
                  Language := cfg.Language, Interim := cfg.Interim,
                  Punctuate := cfg.Punctuate, SmartFormat := cfg.SmartFormat } })), none)) := by
  constructor
  · intro name cfg key hname
    simp [providers.Factory.CreateProvider, providers.NewFactory_eq, hname]
  · intro cfg key
    simp [providers.Factory.CreateProvider, providers.NewFactory_eq,
      providers.deepgramConstructor, deepgram.NewProvider]

/-- Witness of C6: `"nonexistent"` and `"Deepgram"` are unknown, `"deepgram"` is built. -/
theorem NewFactory_CreateProvider_witness :
    providers.NewFactory.CreateProvider "nonexistent" (some cfgEn) "k" =
        .returned (none, some ("unknown provider: " ++ "nonexistent")) ∧
    providers.NewFactory.CreateProvider "Deepgram" none "k" =
        .returned (none, some ("unknown provider: " ++ "Deepgram")) ∧
    ∃ p, providers.NewFactory.CreateProvider "deepgram" (some cfgEn) "k" =
        .returned (some p, none) :=
  ⟨NewFactory_CreateProvider.1 "nonexistent" (some cfgEn) "k" (by decide),
   NewFactory_CreateProvider.1 "Deepgram" none "k" (by decide),
   _, NewFactory_CreateProvider.2 cfgEn "k"⟩

/-- C7 (amended): for every factory whose map is initialised (as `NewFactory` builds it),
every sequence of `RegisterProvider` calls and every name, no registration panics and
`CreateProvider(name, cfg, key)` afterwards returns exactly what the constructor registered
last under that name returns on `(cfg, key)`, error included, and what the factory returned
before if the sequence registers nothing under that name; in particular a registration
replaces an earlier one under the same name and leaves every other name as it was. -/
theorem CreateProvider_last_registration_wins (f : providers.Factory)
    (hinit : f.providers.isSome = true)
    (regs : List (String × providers.Constructor)) (name : String)
    (cfg : Option providers.Config) (key : String) :
    (∃ g, f.registerAll regs = .returned g ∧
      g.CreateProvider name cfg key =
        match providers.lastRegistered regs name with
        | some ctor => ctor cfg key
        | none => f.CreateProvider name cfg key) ∧
    (∀ first second : providers.Constructor,
      ∃ g₁ g₂, f.RegisterProvider name first = .returned g₁ ∧
        g₁.RegisterProvider name second = .returned g₂ ∧
        g₂.CreateProvider name cfg key = second cfg key) ∧
    (∀ (other : String) (ctor : providers.Constructor), other ≠ name →
      ∃ g, f.RegisterProvider other ctor = .returned g ∧
        g.CreateProvider name cfg key = f.CreateProvider name cfg key) := by
  obtain ⟨m, rfl⟩ := providers.Factory.eq_of_initialised f hinit
  refine ⟨?_, ?_, ?_⟩
  · obtain ⟨m', hm', hlook⟩ := providers.Factory.registerAll_initialised regs m
    refine ⟨_, hm', ?_⟩
    simp only [providers.Factory.CreateProvider, hlook name]
    cases providers.lastRegistered regs name with
    | some ctor => rfl
    | none => rfl
  · intro first second
    refine ⟨_, _, providers.Factory.RegisterProvider_initialised m name first,
      providers.Factory.RegisterProvider_initialised _ name second, ?_⟩
    simp [providers.Factory.CreateProvider]
  · intro other ctor hne
    have hne' : ¬ name = other := fun h => hne h.symm
    refine ⟨_, providers.Factory.RegisterProvider_initialised m other ctor, ?_⟩
    simp [providers.Factory.CreateProvider, hne']

/-- Witness of C7: after `"deepgram"` is registered again, first with one constructor and
then with a failing one, and `"echo"` is registered too, `"deepgram"` yields the failing
constructor's error unchanged; and a registration of `"echo"` leaves `"deepgram"` as it
was. -/
theorem CreateProvider_last_registration_wins_witness :
    (∃ g, providers.NewFactory.registerAll
        [("deepgram", echoConstructor), ("deepgram", failingConstructor),
         ("echo", echoConstructor)] = .returned g ∧
      g.CreateProvider "deepgram" (some cfgEn) "k" = .returned (none, some "quota exceeded")) ∧
    (∃ g, providers.NewFactory.RegisterProvider "echo" echoConstructor = .returned g ∧
      g.CreateProvider "deepgram" (some cfgEn) "k" =
        providers.NewFactory.CreateProvider "deepgram" (some cfgEn) "k") :=
  ⟨(CreateProvider_last_registration_wins providers.NewFactory rfl
      [("deepgram", echoConstructor), ("deepgram", failingConstructor),
       ("echo", echoConstructor)] "deepgram" (some cfgEn) "k").1,
   (CreateProvider_last_registration_wins providers.NewFactory rfl [] "deepgram" (some cfgEn)
      "k").2.2 "echo" echoConstructor (by decide)⟩

/-- C7 (counterexample): on the zero-value factory, whose map is nil, `RegisterProvider`
panics with "assignment to entry in nil map", so does every sequence of registrations that
starts with it, and no `CreateProvider` after it returns the registered constructor's
result; before any registration `CreateProvider` on that factory reports an unknown
provider. -/
theorem RegisterProvider_nil_map_panics :
    providers.Factory.RegisterProvider zeroFactory "echo" echoConstructor =
      .panicked "assignment to entry in nil map" ∧
    zeroFactory.registerAll [("echo", echoConstructor), ("deepgram", failingConstructor)] =
      .panicked "assignment to entry in nil map" ∧
    zeroFactory.CreateProvider "echo" (some cfgEn) "k" =
      .returned (none, some "unknown provider: echo") :=
  ⟨rfl, rfl, rfl⟩

/-! ## The reference provider -/

/-- C8 (the code at the failing inputs): for a decoded response without channels, for one
whose first channel has no alternatives and for one whose first alternative has an empty
word list, the measurement step of `StreamAudio` ends in an index-out-of-range panic,
whatever the latency; no result is returned. -/
theorem measure_degenerate_panics (latency : Duration) :
    deepgram.measure respNoChannels latency =
        .panicked "runtime error: index out of range [0] with length 0" ∧
    deepgram.measure respNoAlternatives latency =
        .panicked "runtime error: index out of range [0] with length 0" ∧
    deepgram.measure respNoWords latency =
        .panicked "runtime error: index out of range [0] with length 0" ∧
    deepgram.StreamAudio dgProvider (some ()) (.plain [] none)
        (worldAnswering 200 "{}" respNoChannels latency.toNat) =
        .panicked "runtime error: index out of range [0] with length 0" :=
  ⟨rfl, rfl, rfl, rfl⟩

/-- The two error texts of the response stages start differently. -/
theorem decode_text_ne_api_text (e x : String) :
    "failed to decode response: " ++ e ≠ "API error " ++ x := by
  intro h
  have h1 := congrArg String.data h
  simp only [String.data_append] at h1
  have h2 : some 'f' = some 'A' := congrArg List.head? h1
  exact absurd h2 (by decide)

/-- After a status of 200 the outcome is never the API error. -/
theorem decodeAndMeasure_ne_api_error (w : deepgram.World) (resp : deepgram.Response)
    (x : String) :
    deepgram.decodeAndMeasure w resp ≠
      .returned { result := none, err := some ("API error " ++ x), printed := [] } := by
  unfold deepgram.decodeAndMeasure
  cases w.decode resp.Body with
  | error e =>
    intro h
    simp only [Call.returned.injEq, deepgram.Returned.mk.injEq, Option.some.injEq,
      true_and, and_true] at h
    exact decode_text_ne_api_text e x h
  | ok dgResp =>
    simp only
    split <;> simp

/-- C9 (amended): once the request has been sent and a response received, `StreamAudio`
returns the API error "API error <status>: <body>", whose text contains the decimal status
code and the raw body, and no result, exactly when the status code differs from 200; for
the status code 200 it goes on to decode the body as a success response. -/
theorem StreamAudio_status_check (p : deepgram.Provider) (config : deepgram.Config)
    (audioReader : deepgram.AudioReader) (audioData : List Byte) (w : deepgram.World)
    (resp : deepgram.Response)
    (hcfg : p.config = some config)
    (hread : deepgram.acquireAudio audioReader = (audioData, none))
    (hsend : w.send
        { method := "POST"
          url := "https://api.deepgram.com/v1/listen"
          authorization := "Token " ++ p.apiKey
          contentType := "audio/wav"
          query := deepgram.queryParams config
          body := audioData } = (some resp, none)) :
    (resp.StatusCode ≠ 200 ↔
      deepgram.StreamAudio p (some ()) audioReader w =
        .returned
          { result := none
            err := some ("API error " ++ toString resp.StatusCode ++ ": " ++ resp.Body)
            printed := [] }) ∧
    (resp.StatusCode = 200 →
      deepgram.StreamAudio p (some ()) audioReader w = deepgram.decodeAndMeasure w resp) ∧
    (toString resp.StatusCode).data <:+:
      ("API error " ++ toString resp.StatusCode ++ ": " ++ resp.Body).data ∧
    resp.Body.data <:+:
      ("API error " ++ toString resp.StatusCode ++ ": " ++ resp.Body).data := by
  have hrun : deepgram.StreamAudio p (some ()) audioReader w = deepgram.handleResponse w resp := by
    simp only [deepgram.StreamAudio, hread, hcfg, hsend]
  refine ⟨⟨?_, ?_⟩, ?_, ?_, ?_⟩
  · intro hne
    rw [hrun, deepgram.handleResponse, if_pos (by simpa [deepgram.StatusOK] using hne)]
  · intro h hok
    rw [hrun, deepgram.handleResponse, if_neg (by simp [deepgram.StatusOK, hok])] at h
    rw [String.append_assoc] at h
    exact decodeAndMeasure_ne_api_error w resp _ h
  · intro hok
    rw [hrun, deepgram.handleResponse, if_neg (by simp [deepgram.StatusOK, hok])]
  · exact ⟨"API error ".data, (": " ++ resp.Body).data, by simp⟩
  · exact ⟨("API error " ++ toString resp.StatusCode ++ ": ").data, [], by simp⟩

/-- Witness of C9: a 500 answer gives the API error, a 200 answer is decoded. -/
theorem StreamAudio_status_check_witness :
    deepgram.StreamAudio dgProvider (some ()) (.plain [] none)
        (worldAnswering 500 "oops" respTwoWords 5000000) =
      .returned { result := none, err := some "API error 500: oops", printed := [] } ∧
    deepgram.StreamAudio dgProvider (some ()) (.plain [] none)
        (worldAnswering 200 "{}" respTwoWords 5000000) =
      deepgram.decodeAndMeasure (worldAnswering 200 "{}" respTwoWords 5000000)
        { StatusCode := 200, Body := "{}" } :=
  ⟨(StreamAudio_status_check dgProvider _ (.plain [] none) []
      (worldAnswering 500 "oops" respTwoWords 5000000) { StatusCode := 500, Body := "oops" }
      rfl rfl rfl).1.mp (by decide),
   (StreamAudio_status_check dgProvider _ (.plain [] none) []
      (worldAnswering 200 "{}" respTwoWords 5000000) { StatusCode := 200, Body := "{}" }
      rfl rfl rfl).2.1 rfl⟩

/-- C9 (counterexample): the status code 201 lies in 200..299, yet `StreamAudio` returns
the API error and no result instead of decoding the body. -/
theorem StreamAudio_201_is_api_error :
    ((200 : Int) ≤ 201 ∧ (201 : Int) ≤ 299) ∧
    deepgram.StreamAudio dgProvider (some ()) (.plain [] none)
        (worldAnswering 201 "{}" respTwoWords 5000000) =
      .returned { result := none, err := some "API error 201: {}", printed := [] } :=
  ⟨by decide, rfl⟩

/-! ## Latency and throughput -/

/-- The seconds of a non-negative duration: a finite value, not negative, and zero only for
the zero duration. -/
theorem Seconds_natCast (e : Nat) :
    ∃ q : ℚ, Seconds (e : Int) = .finite q ∧ 0 ≤ q ∧ (q = 0 ↔ e = 0) := by
  have hdiv : Int.tdiv (e : Int) Second = ((e / 1000000000 : Nat) : Int) := by
    rw [Int.ofNat_tdiv]
    rfl
  have hmod : Int.tmod (e : Int) Second = ((e % 1000000000 : Nat) : Int) := by
    rw [Int.ofNat_tmod]
    rfl
  refine ⟨((e / 1000000000 : Nat) : ℚ) + ((e % 1000000000 : Nat) : ℚ) / 1000000000, ?_, ?_, ?_⟩
  · rw [Seconds, hdiv, hmod]
    simp only [F64.ofInt, Int.cast_natCast, F64.div, F64.add]
    rw [if_neg (by norm_num)]
  · positivity
  · constructor
    · intro h
      have h1 : (0 : ℚ) ≤ ((e / 1000000000 : Nat) : ℚ) := by positivity
      have h2 : (0 : ℚ) ≤ ((e % 1000000000 : Nat) : ℚ) / 1000000000 := by positivity
      have h3 : ((e / 1000000000 : Nat) : ℚ) = 0 := by linarith
      have h4 : ((e % 1000000000 : Nat) : ℚ) / 1000000000 = 0 := by linarith
      have h5 : e / 1000000000 = 0 := by exact_mod_cast h3
      have h6 : ((e % 1000000000 : Nat) : ℚ) = 0 := by
        have := div_eq_zero_iff.mp h4
        rcases this with h | h
        · exact h
        · norm_num at h
      have h7 : e % 1000000000 = 0 := by exact_mod_cast h6
      omega
    · intro h
      subst h
      norm_num

/-- A result of the measurement step comes from a word count of at least 1. -/
theorem measure_returned (dgResp : deepgram.DeepgramResponse) (latency : Duration)
    (m : deepgram.Measured) (h : deepgram.measure dgResp latency = .returned m) :
    ∃ k : Nat, 0 < k ∧
      m.result = { Latency := deepgram.latencyMs latency,
                   Throughput := deepgram.throughput (k : Int) latency } := by
  obtain ⟨⟨channels, isFinal⟩⟩ := dgResp
  cases channels with
  | nil => simp [deepgram.measure, deepgram.index0] at h
  | cons ch chs =>
    obtain ⟨alts⟩ := ch
    cases alts with
    | nil => simp [deepgram.measure, deepgram.index0] at h
    | cons alt alts =>
      obtain ⟨transcript, words⟩ := alt
      cases words with
      | nil => simp [deepgram.measure, deepgram.index0] at h
      | cons w ws =>
        simp only [deepgram.measure, deepgram.index0, Call.returned.injEq] at h
        subst h
        exact ⟨ws.length + 1, Nat.succ_pos _, rfl⟩

/-- Throughput for a positive word count: `+Inf` at zero elapsed time, a finite value that
is not negative otherwise. -/
theorem throughput_pos (k e : Nat) (hk : 0 < k) :
    deepgram.throughput (k : Int) (e : Int) ≠ .nan ∧
      (deepgram.throughput (k : Int) (e : Int)).nonneg = true ∧
      (e = 0 → deepgram.throughput (k : Int) (e : Int) = .posInf) := by
  obtain ⟨q, hq, hq0, hqz⟩ := Seconds_natCast e
  have hkq : (0 : ℚ) < (k : ℚ) := by exact_mod_cast hk
  unfold deepgram.throughput
  rw [hq]
  by_cases he : e = 0
  · have hz : q = 0 := hqz.mpr he
    simp [F64.ofInt, F64.div, hz, hkq, hkq.ne', F64.nonneg]
  · have hz : q ≠ 0 := fun h => he (hqz.mp h)
    have hpos : 0 ≤ (k : ℚ) / q := div_nonneg hkq.le hq0
    simp [F64.ofInt, F64.div, hz, F64.nonneg, he, hpos]

/-- The latency in milliseconds of a non-negative duration is finite and not negative. -/
theorem latencyMs_nonneg (e : Nat) : (deepgram.latencyMs (e : Int)).nonneg = true := by
  have h : (0 : ℚ) ≤ (e : ℚ) / 1000000 := by positivity
  simp [deepgram.latencyMs, F64.ofInt, F64.div, F64.nonneg, h]

/-- C10 (amended): for every word count `n >= 1` (`n = 5` in particular) the throughput
`n / elapsedSeconds` at an elapsed time of 0 is `+Inf`, never NaN; for every `n >= 1` and
every elapsed time, and for `n = 0` at a positive elapsed time, the throughput is not NaN
and is `>= 0`; the latency is `>= 0` for every elapsed time; and every result that the
measurement step returns has latency and throughput `>= 0`, the throughput being `+Inf`
when the elapsed time is 0. -/
theorem throughput_zero_elapsed_policy (n elapsedNs : Nat) :
    (0 < n → deepgram.throughput (n : Int) 0 = .posInf) ∧
    (0 < n ∨ 0 < elapsedNs →
      deepgram.throughput (n : Int) (elapsedNs : Int) ≠ .nan ∧
      (deepgram.throughput (n : Int) (elapsedNs : Int)).nonneg = true) ∧
    (deepgram.latencyMs (elapsedNs : Int)).nonneg = true ∧
    (∀ dgResp m, deepgram.measure dgResp (elapsedNs : Int) = .returned m →
      m.result.Latency.nonneg = true ∧ m.result.Throughput.nonneg = true ∧
      m.result.Throughput ≠ .nan ∧ (elapsedNs = 0 → m.result.Throughput = .posInf)) := by
  refine ⟨?_, ?_, latencyMs_nonneg elapsedNs, ?_⟩
  · intro hn
    exact (throughput_pos n 0 hn).2.2 rfl
  · intro h
    by_cases hn : 0 < n
    · exact ⟨(throughput_pos n elapsedNs hn).1, (throughput_pos n elapsedNs hn).2.1⟩
    · have hn0 : n = 0 := by omega
      have he : elapsedNs ≠ 0 := by omega
      obtain ⟨q, hq, -, hqz⟩ := Seconds_natCast elapsedNs
      have hz : q ≠ 0 := fun hq0 => he (hqz.mp hq0)
      subst hn0
      unfold deepgram.throughput
      rw [hq]
      simp [F64.ofInt, F64.div, hz, F64.nonneg]
  · intro dgResp m hm
    obtain ⟨k, hk, hres⟩ := measure_returned dgResp (elapsedNs : Int) m hm
    rw [hres]
    exact ⟨latencyMs_nonneg elapsedNs, (throughput_pos k elapsedNs hk).2.1,
      (throughput_pos k elapsedNs hk).1, (throughput_pos k elapsedNs hk).2.2⟩

/-- Witness of C10: five words in no time give `+Inf`; two words in 5 ms are measured with
a latency and a throughput that are not negative. -/
theorem throughput_zero_elapsed_policy_witness :
    deepgram.throughput 5 0 = .posInf ∧
    (∃ m, deepgram.measure respTwoWords 5000000 = .returned m ∧
      m.result.Latency.nonneg = true ∧ m.result.Throughput.nonneg = true) :=
  ⟨(throughput_zero_elapsed_policy 5 0).1 (by decide),
   _, rfl,
   ((throughput_zero_elapsed_policy 2 5000000).2.2.2 respTwoWords _ rfl).1,
   ((throughput_zero_elapsed_policy 2 5000000).2.2.2 respTwoWords _ rfl).2.1⟩

/-- C10 (counterexample): with a word count of 0 and an elapsed time of 0 the throughput
`0 / 0` that `StreamAudio` computes is NaN. -/
theorem throughput_zero_words_zero_elapsed_nan :
    deepgram.throughput 0 0 = .nan := by
  simp [deepgram.throughput, Seconds, Second, F64.ofInt, F64.div, F64.add]

/-! ## The request parameters -/

/-- C11 (the code at the failing input): the query parameters carry the language of the
configuration, `punctuate=true` exactly when `Punctuate` is set and `smart_format=true`
exactly when `SmartFormat` is set, but `interim_results=true` is present whatever `Interim`
is: a configuration with `Interim = false` still sends it, changing `Interim` changes neither
the parameters nor anything `StreamAudio` does, and no other value of `interim_results` is
ever sent. -/
theorem queryParams_ignores_Interim (config : deepgram.Config) (b : Bool) :
    (("language", config.Language) ∈ deepgram.queryParams config ∧
      (("punctuate", "true") ∈ deepgram.queryParams config ↔ config.Punctuate = true) ∧
      (("smart_format", "true") ∈ deepgram.queryParams config ↔ config.SmartFormat = true)) ∧
    ("interim_results", "true") ∈ deepgram.queryParams dgConfigNoInterim ∧
    ("interim_results", "true") ∈ deepgram.queryParams config ∧
    (∀ v : String, ("interim_results", v) ∈ deepgram.queryParams config → v = "true") ∧
    deepgram.queryParams { config with Interim := b } = deepgram.queryParams config ∧
    (∀ (apiKey : String) (ctx : deepgram.Context) (audioReader : deepgram.AudioReader)
        (w : deepgram.World),
      deepgram.StreamAudio { apiKey := apiKey, config := some { config with Interim := b } }
          ctx audioReader w =
        deepgram.StreamAudio { apiKey := apiKey, config := some config } ctx audioReader w) := by
  refine ⟨⟨?_, ?_, ?_⟩, by decide, ?_, ?_, rfl, fun _ _ _ _ => rfl⟩
  · simp [deepgram.queryParams]
  · cases hp : config.Punctuate <;> cases hs : config.SmartFormat <;>
      simp [deepgram.queryParams, hp, hs]
  · cases hp : config.Punctuate <;> cases hs : config.SmartFormat <;>
      simp [deepgram.queryParams, hp, hs]
  · simp [deepgram.queryParams]
  · intro v hv
    cases hp : config.Punctuate <;> cases hs : config.SmartFormat <;>
      simp [deepgram.queryParams, hp, hs] at hv <;> exact hv

/-! ## The format fields are not validated -/

theorem Uint16_lt (b : List Byte) : Uint16 b < 65536 := by
  have h0 := (b.getD 0 0).isLt
  have h1 := (b.getD 1 0).isLt
  unfold Uint16
  omega

theorem Uint32_lt (b : List Byte) : Uint32 b < 4294967296 := by
  have h0 := (b.getD 0 0).isLt
  have h1 := (b.getD 1 0).isLt
  have h2 := (b.getD 2 0).isLt
  have h3 := (b.getD 3 0).isLt
  unfold Uint32
  omega

/-- The fields of any streamer that `NewWAVStreamer` returns, in terms of the header buffer
the fields were decoded from. -/
theorem NewWAVStreamer_fields (fs : FS) (filePath : String) (chunkSize : Int)
    (chunkInterval : Duration) (w : WAVStreamer)
    (h : NewWAVStreamer fs filePath chunkSize chunkInterval = (some w, none)) :
    ∃ header : List Byte,
      w.sampleRate = toInt64 (Uint32 (slice header 24 28)) ∧
      w.channels = toInt64 (Uint16 (slice header 22 24)) ∧
      w.bytesPerSample = Int.tdiv (toInt64 (Uint16 (slice header 34 36))) 8 ∧
      w.chunkSize = chunkSize ∧ w.chunkInterval = chunkInterval ∧ w.headerSize = 44 := by
  unfold NewWAVStreamer at h
  cases hopen : osOpen fs filePath with
  | mk file err =>
    cases file with
    | none => simp [hopen] at h
    | some file =>
      simp only [hopen] at h
      cases herr : (file.Read 44).err with
      | some e => simp [herr] at h
      | none =>
        simp only [herr] at h
        split at h
        · simp at h
        · simp only [Prod.mk.injEq, Option.some.injEq, and_true] at h
          subst h
          exact ⟨_, rfl, rfl, rfl, rfl, rfl, rfl⟩

/-- Byte `i` of the 44-byte header buffer after the read of a file: the byte of the file
at `i`, and 0 past the end of a short file. -/
theorem header_getD (c : List Byte) (i : Nat) (hi : i < 44) :
    (fillBuffer (makeBytes 44) (c.take 44)).getD i 0 = c.getD i 0 := by
  unfold fillBuffer makeBytes
  by_cases hlt : i < c.length
  · have hlt' : i < (c.take 44).length := by
      rw [List.length_take]
      omega
    rw [List.getD_append _ _ _ _ hlt']
    simp [List.getD_eq_getElem?_getD, List.getElem?_take_of_lt hi]
  · have hge : (c.take 44).length ≤ i := by
      rw [List.length_take]
      omega
    have hzero : c.getD i 0 = 0 := List.getD_eq_default _ _ (by omega)
    rw [List.getD_append_right _ _ _ _ hge, List.drop_replicate, List.getD_eq_getElem?_getD,
      List.getElem?_getD_replicate_default_eq, hzero]

/-- The streamer `NewWAVStreamer` returns for a file with the bytes `c`: the file is not
empty, and the three format fields are the little-endian values of the file's bytes at
offsets 24, 22 and 34 (the last one divided by 8), bytes past the end of a short file
counting as 0. -/
theorem NewWAVStreamer_fields_of_file (fs : FS) (filePath : String) (chunkSize : Int)
    (chunkInterval : Duration) (c : List Byte) (w : WAVStreamer)
    (hopen : fs filePath = some c)
    (h : NewWAVStreamer fs filePath chunkSize chunkInterval = (some w, none)) :
    c ≠ [] ∧
    w.sampleRate = (((c.getD 24 0).val + 256 * (c.getD 25 0).val + 65536 * (c.getD 26 0).val
      + 16777216 * (c.getD 27 0).val : Nat) : Int) ∧
    w.channels = (((c.getD 22 0).val + 256 * (c.getD 23 0).val : Nat) : Int) ∧
    w.bytesPerSample = ((((c.getD 34 0).val + 256 * (c.getD 35 0).val) / 8 : Nat) : Int) ∧
    w.chunkSize = chunkSize ∧ w.chunkInterval = chunkInterval ∧ w.headerSize = 44 ∧
    w.file.content = c := by
  have h22 := (c.getD 22 0).isLt
  have h23 := (c.getD 23 0).isLt
  have h24 := (c.getD 24 0).isLt
  have h25 := (c.getD 25 0).isLt
  have h26 := (c.getD 26 0).isLt
  have h27 := (c.getD 27 0).isLt
  have h34 := (c.getD 34 0).isLt
  have h35 := (c.getD 35 0).isLt
  by_cases hc : c = []
  · subst hc
    simp [NewWAVStreamer, osOpen, hopen, File.Read] at h
  · have hread : File.Read { content := c, offset := 0 } 44 =
        { data := c.take 44, err := none,
          file := { content := c, offset := 0 + (c.take 44).length } } := by
      simp [File.Read, hc]
    simp only [NewWAVStreamer, osOpen, hopen, hread] at h
    split at h
    · simp at h
    · simp only [Prod.mk.injEq, Option.some.injEq, and_true] at h
      subst h
      simp only [Uint16_slice _ 22, Uint16_slice _ 34, Uint32_slice _ 24,
        header_getD c 22 (by norm_num), header_getD c 23 (by norm_num),
        header_getD c 24 (by norm_num), header_getD c 25 (by norm_num),
        header_getD c 26 (by norm_num), header_getD c 27 (by norm_num),
        header_getD c 34 (by norm_num), header_getD c 35 (by norm_num)]
      rw [toInt64_of_lt _ (by omega), toInt64_of_lt _ (by omega), toInt64_of_lt _ (by omega)]
      refine ⟨hc, ?_, ?_, ?_, ?_, ?_, ?_, ?_⟩ <;> first | rfl | trivial

/-- C12 (amended): every streamer that `NewWAVStreamer` returns without error, for a file of
any length, has its three format fields equal to the little-endian values of the header
(bytes past the end of a short file counting as 0): sampleRate is the 32-bit value at offset
24, channels the 16-bit value at offset 22 and bytesPerSample the 16-bit bits-per-sample
value at offset 34 divided by 8 and rounded down; so `0 <= sampleRate < 2^32`,
`0 <= channels < 2^16`, `0 <= bytesPerSample < 2^13` and
`bytesPerSample x 8 <= bits < bytesPerSample x 8 + 8`. The fields are not checked any
further: every file of at least 44 bytes with both markers is accepted, whatever its format
fields are. -/
theorem NewWAVStreamer_format_unvalidated (fs : FS) (filePath : String) (chunkSize : Int)
    (chunkInterval : Duration) :
    (∀ (c : List Byte) (w : WAVStreamer), fs filePath = some c →
      NewWAVStreamer fs filePath chunkSize chunkInterval = (some w, none) →
      w.sampleRate = (((c.getD 24 0).val + 256 * (c.getD 25 0).val
        + 65536 * (c.getD 26 0).val + 16777216 * (c.getD 27 0).val : Nat) : Int) ∧
      w.channels = (((c.getD 22 0).val + 256 * (c.getD 23 0).val : Nat) : Int) ∧
      w.bytesPerSample = ((((c.getD 34 0).val + 256 * (c.getD 35 0).val) / 8 : Nat) : Int) ∧
      (0 ≤ w.sampleRate ∧ w.sampleRate < 2 ^ 32) ∧
      (0 ≤ w.channels ∧ w.channels < 2 ^ 16) ∧
      (0 ≤ w.bytesPerSample ∧ w.bytesPerSample < 2 ^ 13) ∧
      w.bytesPerSample * 8 ≤ (((c.getD 34 0).val + 256 * (c.getD 35 0).val : Nat) : Int) ∧
      (((c.getD 34 0).val + 256 * (c.getD 35 0).val : Nat) : Int) < w.bytesPerSample * 8 + 8) ∧
    (∀ w, NewWAVStreamer fs filePath chunkSize chunkInterval = (some w, none) →
      ∃ c, fs filePath = some c ∧ c ≠ []) ∧
    (∀ c, fs filePath = some c → 44 ≤ c.length → slice c 0 4 = RIFF → slice c 8 12 = WAVE →
      ∃ w, NewWAVStreamer fs filePath chunkSize chunkInterval = (some w, none) ∧
        w.bytesPerSample = ((((c.getD 34 0).val + 256 * (c.getD 35 0).val) / 8 : Nat) : Int)) := by
  refine ⟨?_, ?_, ?_⟩
  · intro c w hopen h
    obtain ⟨-, hsr, hch, hbps, -, -, -, -⟩ :=
      NewWAVStreamer_fields_of_file fs filePath chunkSize chunkInterval c w hopen h
    have h22 := (c.getD 22 0).isLt
    have h23 := (c.getD 23 0).isLt
    have h24 := (c.getD 24 0).isLt
    have h25 := (c.getD 25 0).isLt
    have h26 := (c.getD 26 0).isLt
    have h27 := (c.getD 27 0).isLt
    have h34 := (c.getD 34 0).isLt
    have h35 := (c.getD 35 0).isLt
    refine ⟨hsr, hch, hbps, ?_, ?_, ?_, ?_, ?_⟩
    · rw [hsr]
      constructor <;> omega
    · rw [hch]
      constructor <;> omega
    · rw [hbps]
      constructor <;> omega
    · rw [hbps]
      omega
    · rw [hbps]
      omega
  · intro w h
    cases hopen : fs filePath with
    | none => simp [NewWAVStreamer, osOpen, hopen] at h
    | some c =>
      exact ⟨c, rfl,
        (NewWAVStreamer_fields_of_file fs filePath chunkSize chunkInterval c w hopen h).1⟩
  · intro c hopen hlen hriff hwave
    exact ⟨_, NewWAVStreamer_accepts fs filePath chunkSize chunkInterval c hopen hlen hriff
      hwave, rfl⟩

/-- Witness of C12: the header with 12 bits per sample is accepted, with 1 byte per
sample; and the streamer built from the 40-byte prefix of the 16-bit header has the fields
of that prefix, 2 bytes per sample among them. -/
theorem NewWAVStreamer_format_unvalidated_witness :
    (∃ w, NewWAVStreamer (oneFile header12bit) "a.wav" 4096 0 = (some w, none) ∧
      w.bytesPerSample = 1) ∧
    NewWAVStreamer (oneFile header16kPrefix40) "a.wav" 4096 0 = (some streamerPrefix40, none) ∧
    streamerPrefix40.bytesPerSample =
      ((((header16kPrefix40.getD 34 0).val + 256 * (header16kPrefix40.getD 35 0).val) / 8
        : Nat) : Int) :=
  ⟨(NewWAVStreamer_format_unvalidated (oneFile header12bit) "a.wav" 4096 0).2.2 header12bit
      (by decide) (by decide) (by decide) (by decide),
   by decide,
   ((NewWAVStreamer_format_unvalidated (oneFile header16kPrefix40) "a.wav" 4096 0).1
      header16kPrefix40 streamerPrefix40 (by decide) (by decide)).2.2.1⟩

/-- C12 (counterexample): a 44-byte header with both markers and 0 channels, 0 Hz and 0 bits
per sample is accepted, giving a streamer whose three format fields are 0; and a header
with 12 bits per sample is accepted with 1 byte per sample, although 1 x 8 is not 12. -/
theorem NewWAVStreamer_accepts_zero_format :
    NewWAVStreamer (oneFile headerZeroFormat) "a.wav" 4096 0 =
      (some
        { file := { content := headerZeroFormat, offset := 44 }
          chunkSize := 4096
          chunkInterval := 0
          headerSize := 44
          sampleRate := 0
          bytesPerSample := 0
          channels := 0 }, none) ∧
    (NewWAVStreamer (oneFile header12bit) "a.wav" 4096 0).1.map
        (fun w => (w.GetAudioFormat, w.bytesPerSample * 8)) = some ((16000, 1, 1), 8) ∧
    Uint16 (slice header12bit 34 36) = 12 := by
  decide

/-! ## The bulk escape hatch -/

/-- Reading a file to its end with `Read` calls on `room > 0` free bytes delivers, after
what was already accumulated, everything from the cursor to the end of the file, without
error, as soon as more reads are allowed than bytes are left. -/
theorem ReadAllLoop_spec (room : Nat) (hroom : 0 < room) :
    ∀ (fuel : Nat) (f : File) (acc : List Byte), f.rest.length < fuel →
      ∃ f', ReadAllLoop fuel f room acc = some ((acc ++ f.rest, none), f') ∧
        f'.content = f.content := by
  intro fuel
  induction fuel with
  | zero =>
    intro f acc h
    exact absurd h (Nat.not_lt_zero _)
  | succ k ih =>
    intro f acc h
    have hroom' : room ≠ 0 := by omega
    by_cases hrest : f.rest = []
    · refine ⟨f, ?_, rfl⟩
      have hr : List.drop f.offset f.content = [] := hrest
      simp [ReadAllLoop, File.Read, hroom', hr, hrest]
    · have hr : List.drop f.offset f.content ≠ [] := hrest
      have hpos : 0 < f.rest.length := List.length_pos.mpr hrest
      have hrest' : File.rest { f with offset := f.offset + (f.rest.take room).length }
          = f.rest.drop room := by
        simp only [File.rest]
        rw [← List.drop_drop]
        exact drop_length_take _ room
      have hlen' : (File.rest { f with offset := f.offset + (f.rest.take room).length }).length
          < k := by
        rw [hrest', List.length_drop]
        omega
      obtain ⟨f', hf', hc⟩ := ih _ (acc ++ f.rest.take room) hlen'
      refine ⟨f', ?_, hc⟩
      rw [ReadAllLoop]
      simp only [File.Read, hroom', hr, if_false]
      rw [show List.take room (List.drop f.offset f.content) = f.rest.take room from rfl, hf',
        hrest', List.append_assoc, List.take_append_drop]

/-- The reader `Stream` hands out works on the streamer's file. -/
theorem Stream_file_content (ws : WAVStreamer) (r : wavChunkReader)
    (h : ws.Stream = (some r, none)) : r.file.content = ws.file.content := by
  unfold WAVStreamer.Stream File.Seek at h
  by_cases hneg : ws.headerSize < 0
  · simp [hneg] at h
  · simp only [hneg, if_false, Prod.mk.injEq, Option.some.injEq, and_true] at h
    subst h
    rfl

/-- C14: for every chunk reader, whatever its file and cursor position (in particular one
obtained from `Stream()`), `GetFile` returns the file with the cursor at offset 0, and
reading it to the end yields the entire file content, the 44-byte header included; hence
`StreamAudio` on such a reader acquires and transmits the whole file as the request body,
exactly as if it had been given a plain reader delivering the whole file, whatever the chunk
size and chunk interval are (no paced `Read` takes part), whereas for a reader without
`GetFile` the payload is what draining that reader delivers. -/
theorem GetFile_reads_whole_file (r : wavChunkReader) :
    r.GetFile = { content := r.file.content, offset := 0 } ∧
    (∀ ws : WAVStreamer, ws.Stream = (some r, none) →
      r.GetFile = { content := ws.file.content, offset := 0 }) ∧
    (∀ room fuel : Nat, 0 < room → r.file.content.length < fuel →
      ∃ f', ReadAllLoop fuel r.GetFile room [] = some ((r.file.content, none), f')) ∧
    deepgram.ReadAllFile r.GetFile = (r.file.content, none) ∧
    (∀ (cs : Int) (ci : Duration),
      deepgram.acquireAudio (.chunked { r with chunkSize := cs, chunkInterval := ci }) =
        (r.file.content, none)) ∧
    (∀ (p : deepgram.Provider) (ctx : deepgram.Context) (w : deepgram.World),
      deepgram.StreamAudio p ctx (.chunked r) w =
        deepgram.StreamAudio p ctx (.plain r.file.content none) w) ∧
    (∀ (p : deepgram.Provider) (config : deepgram.Config) (w : deepgram.World)
        (resp : deepgram.Response), p.config = some config →
      w.send
        { method := "POST"
          url := "https://api.deepgram.com/v1/listen"
          authorization := "Token " ++ p.apiKey
          contentType := "audio/wav"
          query := deepgram.queryParams config
          body := r.file.content } = (some resp, none) →
      deepgram.StreamAudio p (some ()) (.chunked r) w = deepgram.handleResponse w resp) ∧
    (∀ (data : List Byte) (err : Option String),
      deepgram.acquireAudio (.plain data err) = (data, err)) := by
  have hget : r.GetFile = { content := r.file.content, offset := 0 } := by
    simp [wavChunkReader.GetFile, File.Seek]
  have hall : deepgram.ReadAllFile r.GetFile = (r.file.content, none) := by
    rw [hget]
    rfl
  refine ⟨hget, ?_, ?_, hall, ?_, ?_, ?_, fun _ _ => rfl⟩
  · intro ws h
    rw [hget, Stream_file_content ws r h]
  · intro room fuel hroom hfuel
    obtain ⟨f', hf', -⟩ := ReadAllLoop_spec room hroom fuel r.GetFile []
      (by rw [hget]; exact hfuel)
    refine ⟨f', ?_⟩
    rw [hf', hget]
    rfl
  · intro cs ci
    exact hall
  · intro p ctx w
    simp only [deepgram.StreamAudio, deepgram.acquireAudio, hall]
  · intro p config w resp hcfg hsend
    simp only [deepgram.StreamAudio, deepgram.acquireAudio, hall, hcfg, hsend]

/-- Witness of C14: after `Stream()` on a streamer whose cursor was at offset 7, the service
that accepts only the whole 54-byte file as body answers, and reading the file returned by
`GetFile` in pieces of 16 bytes gives the whole file. -/
theorem GetFile_reads_whole_file_witness :
    ∃ r, streamer4.Stream = (some r, none) ∧
      r.GetFile = { content := tenByteWav, offset := 0 } ∧
      (∃ f', ReadAllLoop 55 r.GetFile 16 [] = some ((tenByteWav, none), f')) ∧
      deepgram.StreamAudio dgProvider (some ()) (.chunked r) worldExpectingWholeFile =
        deepgram.handleResponse worldExpectingWholeFile { StatusCode := 200, Body := "{}" } :=
  ⟨{ file := { content := tenByteWav, offset := 44 }, chunkSize := 4,
     chunkInterval := 100 * Millisecond }, by decide,
   (GetFile_reads_whole_file _).2.1 streamer4 (by decide),
   (GetFile_reads_whole_file _).2.2.1 16 55 (by decide) (by decide),
   (GetFile_reads_whole_file _).2.2.2.2.2.2.1 dgProvider _ worldExpectingWholeFile
     { StatusCode := 200, Body := "{}" } rfl (by decide)⟩

/-! ## Defaults of the command-line flags -/

/-- C15 (the code at the failing input): the default handed to `getEnvInt` for the flag
`chunk-interval` is `100 / 1000000 = 0`, so with `DEFAULT_CHUNK_INTERVAL` unset, empty or
not a decimal integer the flag's default is 0, not 100; a decimal integer in the variable
is taken as it is, and the sibling flag `chunk-size` does default to 4096. -/
theorem chunkIntervalFlagDefault_is_zero (env : Env) :
    Int.tdiv DefaultChunkInterval Millisecond = 0 ∧
    chunkIntervalFlagDefault env = getEnvInt env "DEFAULT_CHUNK_INTERVAL" 0 ∧
    chunkIntervalFlagDefault env =
      (if env "DEFAULT_CHUNK_INTERVAL" = "" then 0
       else (Atoi (env "DEFAULT_CHUNK_INTERVAL")).getD 0) ∧
    chunkIntervalFlagDefault emptyEnv = 0 ∧
    chunkIntervalFlagDefault (envWith "DEFAULT_CHUNK_INTERVAL" "") = 0 ∧
    chunkIntervalFlagDefault (envWith "DEFAULT_CHUNK_INTERVAL" "fast") = 0 ∧
    chunkIntervalFlagDefault (envWith "DEFAULT_CHUNK_INTERVAL" "50") = 50 ∧
    chunkIntervalFlagDefault (envWith "DEFAULT_CHUNK_INTERVAL" "-25") = -25 ∧
    chunkSizeFlagDefault emptyEnv = 4096 ∧
    chunkSizeFlagDefault (envWith "DEFAULT_CHUNK_SIZE" "1024") = 1024 := by
  refine ⟨by decide, rfl, ?_, by decide, by decide, by decide, by decide, by decide,
    by decide, by decide⟩
  have hdef : Int.tdiv DefaultChunkInterval Millisecond = 0 := by decide
  unfold chunkIntervalFlagDefault getEnvInt
  rw [hdef]
  by_cases hv : env "DEFAULT_CHUNK_INTERVAL" = ""
  · simp [hv]
  · cases hA : Atoi (env "DEFAULT_CHUNK_INTERVAL") <;> simp [hv, hA]

/-! ## The benchmark command -/

/-- C13 (the code at the failing inputs): run with a chunk size of -1, and likewise with a
chunk interval of -1, on an existing WAV file, the `benchmark` command reports no error: it
creates a streamer holding the chunk size -1 (or the chunk interval of -1 ms), sends the
audio, prints the results and returns, however floats are formatted. A `Read` on the reader
of the streamer with chunk size -1 would panic. -/
theorem benchmark_accepts_negative_values (fmtFloat : F64 → String) :
    benchmarkCmd.Run (hostOneWav fmtFloat) flagsNegativeSize =
      .returned
        ["Audio format: 16000 Hz, 1 channels\n",
         "Starting benchmark with deepgram provider...\n",
         "Transcription: hello world\n",
         "first Word: hello\n",
         "first Word is_final: true\n",
         "First word latency: " ++ fmtFloat (deepgram.latencyMs 5000000) ++ " ms\n",
         "Throughput: " ++ fmtFloat (deepgram.throughput 2 5000000) ++ " words/second\n"] ∧
    benchmarkCmd.Run (hostOneWav fmtFloat) flagsNegativeInterval =
      benchmarkCmd.Run (hostOneWav fmtFloat) flagsNegativeSize ∧
    (NewWAVStreamer (oneFile tenByteWav) "a.wav" flagsNegativeSize.chunkSize
        (wrap64 (flagsNegativeSize.chunkInterval * Millisecond))).1.map
      (fun w => (w.chunkSize, w.chunkInterval)) = some (-1, 100000000) ∧
    (NewWAVStreamer (oneFile tenByteWav) "a.wav" flagsNegativeInterval.chunkSize
        (wrap64 (flagsNegativeInterval.chunkInterval * Millisecond))).1.map
      (fun w => (w.chunkSize, w.chunkInterval)) = some (4096, -1000000) ∧
    wavChunkReader.Read
      { file := { content := tenByteWav, offset := 44 }, chunkSize := -1,
        chunkInterval := 100000000 } (makeBytes 8) 0 = none := by
  refine ⟨rfl, rfl, by decide, by decide, by decide⟩

end SpeechLatency
